import Mathlib

/-!
The nft-proxy: routing, upstream client and proxy handler.

A shallow embedding of `internal/handlers/request_utils.go`,
`internal/alchemy/client.go` and `internal/handlers/handlers.go`.

Go strings and byte slices are sequences of bytes; they are modelled as lists of
byte values (`Nat`, each below 256). A nil byte slice and an empty one are both
the empty list: the code only takes their length and writes them.
-/

set_option autoImplicit false

namespace NftProxy

/-! ## Go strings -/

/-- A Go `string` or `[]byte`: its bytes, in order. -/
abbrev GoString := List Nat

/-- The bytes of an ASCII string literal of the source. -/
def ascii (s : String) : GoString := s.toList.map Char.toNat

/-- Go's `strings.Index(s, substr)`: the index of the first instance of `substr`
in `s`, or `-1` if `substr` is not present in `s`. -/
def Index : GoString → GoString → Int
  | [], substr => if substr.isPrefixOf [] then 0 else -1
  | c :: s, substr =>
    if substr.isPrefixOf (c :: s) then 0
    else
      let i := Index s substr
      if i = -1 then -1 else i + 1

/-- Go's slice expression `s[lo:]` for an index `lo` within bounds. -/
def sliceFrom (s : GoString) (lo : Int) : GoString := s.drop lo.toNat

/-! ## Inbound requests -/

/-- The fields of `url.URL` the handler reads. -/
structure URL where
  Path : GoString
  RawQuery : GoString
deriving DecidableEq, Repr

/-- The Go `error` values that the client returns. -/
inductive GoError where
  /-- The `fmt.Errorf("unsupported chain: %s-%s", chain, network)` of `getBaseURL`. -/
  | unsupportedChain (chain network : GoString)
  /-- The `fmt.Errorf("failed to create request: %w", err)` of the client. -/
  | createRequest
  /-- The `fmt.Errorf("request failed: %w", err)` of the client, wrapping `err`. -/
  | requestFailed (err : GoString)
deriving DecidableEq, Repr

/-- The inbound `*http.Request` as the handler sees it: the method, the URL, the
route variables set by the router (`mux.Vars(r)`), and what `io.ReadAll(r.Body)`
gives (the bytes read, or the error). -/
structure Request where
  Method : GoString
  URL : URL
  Vars : GoString → Option GoString
  Body : Except GoString GoString

/-! ## request_utils.go -/

/-- The local `prefix` of `ExtractAlchemyPath`. -/
def pathPrefix : GoString := ascii "/nft/v3/"

/-- The function `ExtractAlchemyPath` of `request_utils.go`. -/
def ExtractAlchemyPath (r : Request) : GoString :=
  let path := r.URL.Path
  let idx := Index path pathPrefix
  if idx = -1 then
    []
  else
    let endpointPath := sliceFrom path (idx + pathPrefix.length - 1)
    endpointPath

/-! ## The Go standard library -/

/-- The parts of the Go standard library that the code reaches and that are not
modelled in full. Every theorem holds for every value of this structure. -/
structure Stdlib where
  /-- The function `strings.Map(unicode.ToLower, s)`: what `strings.ToLower(s)` returns for an
  `s` with a byte of 0x80 or above. -/
  mapToLower : GoString → GoString
  /-- Whether `url.Parse` accepts the string; `http.NewRequestWithContext` fails
  when it does not. -/
  parseURL : GoString → Bool
  /-- The `encoding/json` encoding of a string that has a byte outside the
  encoder's table of bytes written as they are. -/
  jsonEscaped : GoString → GoString

/-- A standard library for evaluating the definitions on ASCII inputs, which do
not reach `mapToLower` and `jsonEscaped`; every URL parses. -/
def Stdlib.plain : Stdlib := ⟨fun s => s, fun _ => true, fun s => s⟩

/-- Go's `strings.ToLower`: on a string of ASCII bytes only, the upper-case
letters 'A'..'Z' are replaced by their lower-case letters; any other string is
mapped through `unicode.ToLower`. -/
def ToLower (lib : Stdlib) (s : GoString) : GoString :=
  if s.all (fun c => c < 128) then
    s.map (fun c => if 65 ≤ c ∧ c ≤ 90 then c + 32 else c)
  else
    lib.mapToLower s

/-- The type `http.Header`: the entries of the header, latest first. -/
abbrev Header := List (GoString × GoString)

/-- The call `Header.Set(key, value)`, for a key in canonical form: the entry of `key` is
replaced by `value`. -/
def Header.Set (h : Header) (key value : GoString) : Header :=
  (key, value) :: h.filter (fun e => e.1 ≠ key)

/-- The call `Header.Get(key)`, for a key in canonical form. -/
def Header.Get (h : Header) (key : GoString) : GoString :=
  (h.lookup key).getD []

/-- The outbound `*http.Request` that the client builds: `Body` is `none` for a
nil `io.Reader`. -/
structure OutRequest where
  Method : GoString
  URL : GoString
  Body : Option GoString
  Header : Header
deriving DecidableEq, Repr

/-- The fields of the upstream `*http.Response` that the code can read; its body
is returned next to it by `ExecuteRequest`. -/
structure HTTPResponse where
  StatusCode : Int
  Header : Header
deriving DecidableEq, Repr

/-- The call `http.NewRequestWithContext(ctx, method, url, body)` for the methods "GET"
and "POST" and a non-nil context: it fails exactly when the URL does not parse. -/
def NewRequestWithContext (lib : Stdlib) (method url : GoString) (body : Option GoString) :
    Option OutRequest :=
  if lib.parseURL url then some ⟨method, url, body, []⟩ else none

/-- The bytes that `encoding/json` writes as they are inside a string (with the
encoder's default HTML escaping): 0x20..0x7f other than the double quote, "&",
"<", ">" and the backslash. -/
def jsonSafe (c : Nat) : Bool :=
  32 ≤ c && c < 128 && c != 34 && c != 38 && c != 60 && c != 62 && c != 92

/-- The `encoding/json` encoding of a Go string. -/
def jsonString (lib : Stdlib) (s : GoString) : GoString :=
  if s.all jsonSafe then ascii "\"" ++ s ++ ascii "\"" else lib.jsonEscaped s

/-- What `json.NewEncoder(w).Encode` writes, in one `Write`, for the map with the
single key "error" and the value `message`: the JSON object and a newline. -/
def encodeErrorJSON (lib : Stdlib) (message : GoString) : GoString :=
  ascii "\x7b\"error\":" ++ jsonString lib message ++ ascii "\x7d\n"

/-! ## Effects -/

/-- The calls the code makes on its collaborators, in the order it makes them. -/
inductive Effect where
  /-- The call `s.logger.Error(msg, ...)`. -/
  | log (msg : GoString)
  /-- The call `io.ReadAll(r.Body)`. -/
  | readAll
  /-- The call `s.alchemyClient.ProxyGET(ctx, chain, network, path, rawQuery)`. -/
  | proxyGET (chain network path rawQuery : GoString)
  /-- The call `s.alchemyClient.ProxyPOST(ctx, chain, network, path, body)`. -/
  | proxyPOST (chain network path body : GoString)
  /-- The call `http.NewRequestWithContext(ctx, method, url, body)`. -/
  | newRequest (method url : GoString) (body : Option GoString)
  /-- The call `c.httpClient.ExecuteRequest(req)`. -/
  | executeRequest (req : OutRequest)
  /-- The call `w.Header().Set(key, value)`. -/
  | headerSet (key value : GoString)
  /-- The call `w.WriteHeader(status)`. -/
  | writeHeader (status : Int)
  /-- The call `w.Write(b)`, also through the JSON encoder. -/
  | write (b : GoString)
deriving DecidableEq, Repr

/-- The calls on the `http.ResponseWriter` among the effects. -/
def writerCalls (es : List Effect) : List Effect :=
  es.filter fun e =>
    match e with
    | .headerSet _ _ => true
    | .writeHeader _ => true
    | .write _ => true
    | _ => false

/-- The calls on the upstream side among the effects: calls of the client,
requests built and requests executed. -/
def upstreamCalls (es : List Effect) : List Effect :=
  es.filter fun e =>
    match e with
    | .proxyGET _ _ _ _ => true
    | .proxyPOST _ _ _ _ => true
    | .newRequest _ _ _ => true
    | .executeRequest _ => true
    | _ => false

/-- The header of the response as it stands when the status is written: the
`Header().Set` calls that precede the first `WriteHeader`. -/
def responseHeader : List Effect → Header → Header
  | [], h => h
  | .headerSet key value :: es, h => responseHeader es (h.Set key value)
  | .writeHeader _ :: _, h => h
  | _ :: es, h => responseHeader es h

/-! ## alchemy/client.go -/

/-- The type `Client` of `client.go`. The table `baseURLs` is a Go map, given by its
lookup; `httpClient` is given by what `ExecuteRequest` returns for a request:
an error, or the response and its body. -/
structure Client where
  apiKey : GoString
  baseURLs : GoString → Option GoString
  httpClient : OutRequest → Except GoString (HTTPResponse × GoString)

/-- The function `Client.getBaseURL` of `client.go`. -/
def getBaseURL (lib : Stdlib) (c : Client) (chain network : GoString) :
    Except GoError GoString :=
  let chainKey := ToLower lib chain ++ ascii "-" ++ ToLower lib network
  match c.baseURLs chainKey with
  | none => .error (.unsupportedChain chain network)
  | some baseURL => .ok baseURL

/-- The three values `([]byte, int, error)` that `ProxyGET` and `ProxyPOST`
return; `err = none` is a nil error. -/
structure ProxyResult where
  body : GoString
  statusCode : Int
  err : Option GoError
deriving DecidableEq, Repr

/-- The function `Client.ProxyGET` of `client.go`, with the effects it has. -/
def ProxyGET (lib : Stdlib) (c : Client) (chain network path rawQuery : GoString) :
    ProxyResult × List Effect :=
  match getBaseURL lib c chain network with
  | .error err => (⟨[], 0, some err⟩, [])
  | .ok baseURL =>
    let endpoint := baseURL ++ ascii "/nft/v3/" ++ c.apiKey ++ path
    let endpoint := if rawQuery ≠ [] then endpoint ++ ascii "?" ++ rawQuery else endpoint
    match NewRequestWithContext lib (ascii "GET") endpoint none with
    | none => (⟨[], 0, some .createRequest⟩, [.newRequest (ascii "GET") endpoint none])
    | some req =>
      let req := { req with Header := req.Header.Set (ascii "Accept") (ascii "application/json") }
      match c.httpClient req with
      | .error err =>
        (⟨[], 0, some (.requestFailed err)⟩,
          [.newRequest (ascii "GET") endpoint none, .executeRequest req])
      | .ok (resp, respBody) =>
        (⟨respBody, resp.StatusCode, none⟩,
          [.newRequest (ascii "GET") endpoint none, .executeRequest req])

/-- The function `Client.ProxyPOST` of `client.go`, with the effects it has. -/
def ProxyPOST (lib : Stdlib) (c : Client) (chain network path body : GoString) :
    ProxyResult × List Effect :=
  match getBaseURL lib c chain network with
  | .error err => (⟨[], 0, some err⟩, [])
  | .ok baseURL =>
    let endpoint := baseURL ++ ascii "/nft/v3/" ++ c.apiKey ++ path
    let reqBody : Option GoString := if body.length > 0 then some body else none
    match NewRequestWithContext lib (ascii "POST") endpoint reqBody with
    | none => (⟨[], 0, some .createRequest⟩, [.newRequest (ascii "POST") endpoint reqBody])
    | some req =>
      let req := { req with Header := req.Header.Set (ascii "Content-Type") (ascii "application/json") }
      let req := { req with Header := req.Header.Set (ascii "Accept") (ascii "application/json") }
      match c.httpClient req with
      | .error err =>
        (⟨[], 0, some (.requestFailed err)⟩,
          [.newRequest (ascii "POST") endpoint reqBody, .executeRequest req])
      | .ok (resp, respBody) =>
        (⟨respBody, resp.StatusCode, none⟩,
          [.newRequest (ascii "POST") endpoint reqBody, .executeRequest req])

/-! ## handlers/handlers.go -/

/-- The type `Server` of `handlers.go`; the calls on its logger are effects. -/
structure Server where
  alchemyClient : Client

/-- The function `Server.writeError` of `handlers.go`. -/
def writeError (lib : Stdlib) (message : GoString) (status : Int) : List Effect :=
  [.headerSet (ascii "Content-Type") (ascii "application/json"),
   .writeHeader status,
   .write (encodeErrorJSON lib message)]

/-- The statements of `Server.handleProxy` that follow its `switch`: the error
response when the client call returned an error, the relay otherwise. The
effects of the client call come first. -/
def handleProxyRespond (lib : Stdlib) (call : ProxyResult × List Effect) : List Effect :=
  let respBody := call.1.body
  let statusCode := call.1.statusCode
  call.2 ++
    match call.1.err with
    | some _ =>
      .log (ascii "Alchemy API error") ::
        writeError lib (ascii "Failed to proxy request") 502
    | none =>
      [.headerSet (ascii "Content-Type") (ascii "application/json"),
       .writeHeader statusCode,
       .write respBody]

/-- The function `Server.handleProxy` of `handlers.go`: the effects of handling request `r`. -/
def handleProxy (lib : Stdlib) (s : Server) (r : Request) : List Effect :=
  let vars := r.Vars
  let chain := (vars (ascii "chain")).getD []
  let network := (vars (ascii "network")).getD []
  let alchemyPath := ExtractAlchemyPath r
  if alchemyPath = [] then
    .log (ascii "Failed to extract Alchemy path from request") ::
      writeError lib (ascii "Invalid request path") 400
  else if r.Method = ascii "GET" then
    .proxyGET chain network alchemyPath r.URL.RawQuery ::
      handleProxyRespond lib
        (ProxyGET lib s.alchemyClient chain network alchemyPath r.URL.RawQuery)
  else if r.Method = ascii "POST" then
    .readAll ::
      match r.Body with
      | .error _ =>
        .log (ascii "Failed to read request body") ::
          writeError lib (ascii "Invalid request body") 400
      | .ok body =>
        .proxyPOST chain network alchemyPath body ::
          handleProxyRespond lib
            (ProxyPOST lib s.alchemyClient chain network alchemyPath body)
  else
    writeError lib (ascii "Method not allowed") 405

/-! ## Outcomes of a client call -/

/-- The four ways a call of `ProxyGET` or `ProxyPOST` on client `c` can go: the
route is unknown; the request cannot be built; the request is executed and
fails; the request is executed and a response comes back. -/
def ClientOutcome (c : Client) (call : ProxyResult × List Effect) : Prop :=
  (∃ err, call = (⟨[], 0, some err⟩, [])) ∨
  (∃ m url b, call = (⟨[], 0, some .createRequest⟩, [.newRequest m url b])) ∨
  (∃ m url b req e, c.httpClient req = .error e ∧
    call = (⟨[], 0, some (.requestFailed e)⟩, [.newRequest m url b, .executeRequest req])) ∨
  (∃ m url b req resp R, c.httpClient req = .ok (resp, R) ∧
    call = (⟨R, resp.StatusCode, none⟩, [.newRequest m url b, .executeRequest req]))

/-- The route variable `name` of a request, as `mux.Vars(r)[name]` gives it. -/
def routeVar (r : Request) (name : GoString) : GoString :=
  (r.Vars name).getD []

/-! ## Sample values -/

/-- A client with the API key "test-api-key" and the single route key
`key`, configured with the base URL "https://alchemy.example". -/
def sampleClient (key : GoString)
    (httpClient : OutRequest → Except GoString (HTTPResponse × GoString)) : Client :=
  ⟨ascii "test-api-key",
   fun k => if k = key then some (ascii "https://alchemy.example") else none,
   httpClient⟩

/-- An inbound request routed with chain "eth" and network "mainnet", whose
body reads as `body`. -/
def sampleRequest (method path rawQuery body : GoString) : Request :=
  ⟨method, ⟨path, rawQuery⟩,
   fun k =>
     if k = ascii "chain" then some (ascii "eth")
     else if k = ascii "network" then some (ascii "mainnet")
     else none,
   .ok body⟩

/-- An upstream that answers every request with the given status, content type
and body. -/
def upstreamAnswers (status : Int) (contentType body : GoString) :
    OutRequest → Except GoString (HTTPResponse × GoString) :=
  fun _ => .ok (⟨status, [(ascii "Content-Type", contentType)]⟩, body)

/-- A server whose client has the route key "eth-mainnet". -/
def sampleServer (httpClient : OutRequest → Except GoString (HTTPResponse × GoString)) :
    Server :=
  ⟨sampleClient (ascii "eth-mainnet") httpClient⟩

/-- The inbound request "GET /eth/mainnet/nft/v3/getNFTsForOwner?owner=0x123". -/
def sampleGET : Request :=
  sampleRequest (ascii "GET") (ascii "/eth/mainnet/nft/v3/getNFTsForOwner")
    (ascii "owner=0x123") []

/-- The upstream request that `sampleServer` makes for `sampleGET`. -/
def sampleUpstreamGET : OutRequest :=
  ⟨ascii "GET",
   ascii "https://alchemy.example/nft/v3/test-api-key/getNFTsForOwner?owner=0x123",
   none, [(ascii "Accept", ascii "application/json")]⟩

/-- An upstream that cannot be reached. -/
def upstreamDown : OutRequest → Except GoString (HTTPResponse × GoString) :=
  fun _ => .error (ascii "connection refused")

/-! ## Case variations -/

/-- Byte `b` is byte `a`, or the same ASCII letter in the other case. -/
def sameLetter (a b : Nat) : Prop :=
  a = b ∨ (65 ≤ a ∧ a ≤ 90 ∧ b = a + 32) ∨ (65 ≤ b ∧ b ≤ 90 ∧ a = b + 32)

/-- The string `t` is the ASCII string `s` with the case of some of its letters
changed. -/
def CaseVariation (s t : GoString) : Prop :=
  (∀ c ∈ s, c < 128) ∧ List.Forall₂ sameLetter s t

/-- The strings `s` and `t` are equal up to case, as `strings.ToLower` sees it. -/
def SameLowerCase (lib : Stdlib) (s t : GoString) : Prop :=
  ToLower lib s = ToLower lib t

/-! ## Routed paths -/

/-- The path of a request matched by the route "/{chain}/{network}/nft/v3/" of
`SetupRoutes`, whose remainder is `rest`. -/
def routedPath (chain network rest : GoString) : GoString :=
  ascii "/" ++ chain ++ ascii "/" ++ network ++ pathPrefix ++ rest

/-! ## Occurrences of a substring -/

/-- The string `sub` occurs in `s`. -/
def Occurs (sub s : GoString) : Prop := ∃ pre post, s = pre ++ sub ++ post

/-- The first occurrence of `sub` in `s` is the one that follows `pre` and is
followed by `post`: no occurrence starts earlier. -/
def FirstOccurrence (sub s pre post : GoString) : Prop :=
  s = pre ++ sub ++ post ∧
    ∀ pre' post', s = pre' ++ sub ++ post' → pre.length ≤ pre'.length

/-! ## config/config.go -/

/-- Modelled from the spec: the type `RetryOptions` of the library
`proxy-common/httpclient`, whose declaration is not among the sources. It is
the Retry Policy of the spec (max attempt count, base backoff duration,
connection timeout, total request timeout, human-readable tag), under the field
names that `applyDefaults` assigns. A `time.Duration` is a number of
nanoseconds. -/
structure RetryOptions where
  MaxRetries : Int
  BaseBackoff : Int
  ConnectionTimeout : Int
  RequestTimeout : Int
  LogPrefix : GoString
deriving DecidableEq, Repr

/-- The type `AlchemyConfig` of `config.go`. -/
structure AlchemyConfig where
  APIKey : GoString
  BaseURLs : GoString → Option GoString
  Retry : RetryOptions

/-- The type `ServerConfig` of `config.go`. -/
structure ServerConfig where
  Port : GoString
  ReadTimeout : Int
  WriteTimeout : Int
deriving DecidableEq, Repr

/-- The type `Config` of `config.go`. -/
structure Config where
  Alchemy : AlchemyConfig
  Server : ServerConfig

/-- Go's `time.Second`, in nanoseconds. -/
def Second : Int := 1000000000

/-- The function `Config.applyDefaults` of `config.go`. The value that
`httpclient.DefaultRetryOptions()` returns is the parameter
`DefaultRetryOptions`. -/
def applyDefaults (DefaultRetryOptions : RetryOptions) (c : Config) : Config :=
  let c :=
    if c.Alchemy.Retry.MaxRetries = 0 then
      let defaults := DefaultRetryOptions
      let c := { c with Alchemy.Retry.MaxRetries := defaults.MaxRetries }
      let c := { c with Alchemy.Retry.BaseBackoff := defaults.BaseBackoff }
      let c := { c with Alchemy.Retry.ConnectionTimeout := defaults.ConnectionTimeout }
      let c := { c with Alchemy.Retry.RequestTimeout := defaults.RequestTimeout }
      { c with Alchemy.Retry.LogPrefix := ascii "Alchemy" }
    else c
  let c := if c.Server.Port = [] then { c with Server.Port := ascii "8080" } else c
  let c :=
    if c.Server.ReadTimeout = 0 then { c with Server.ReadTimeout := 30 * Second } else c
  let c :=
    if c.Server.WriteTimeout = 0 then { c with Server.WriteTimeout := 30 * Second } else c
  c

/-- A configuration without a retry count (MaxRetries 0) that configures a base
backoff of two seconds and the retry tag "Custom". -/
def sampleConfig : Config :=
  ⟨⟨ascii "key", fun _ => none, ⟨0, 2 * Second, 0, 0, ascii "Custom"⟩⟩,
   ⟨ascii "9000", 0, 5 * Second⟩⟩

/-- A configuration with the retry count 5 and no backoff, timeouts or tag. -/
def sampleConfigWithRetries : Config :=
  ⟨⟨ascii "key", fun _ => none, ⟨5, 0, 0, 0, []⟩⟩, ⟨ascii "9000", 0, 5 * Second⟩⟩

/-! ## The retry loop of the upstream client -/

/-- Modelled from the spec: what one attempt of the retry loop of
`proxy-common/httpclient` (not among the sources) gets from the upstream: a
response with its body, a network error or timeout, or the cancellation of the
caller's context. -/
inductive AttemptResult where
  | response (resp : HTTPResponse) (body : GoString)
  | transportError (err : GoString)
  | canceled
deriving DecidableEq, Repr

/-- Modelled from the spec: what happens during one `ExecuteRequest` of
`proxy-common/httpclient` (not among the sources): a call of the upstream (with
the attempt number, from 1), a retry observation, a backoff sleep. -/
inductive RetryEvent where
  | call (attempt : Nat)
  | retryObserved
  | sleep (duration : Int)
deriving DecidableEq, Repr

/-- Modelled from the spec: the classification of an attempt as a retryable
failure by the retry loop of `proxy-common/httpclient`, which is not among the
sources. A network error or a status code designated transient is a retryable
failure; any other received status code is a success; a cancellation aborts the
call. The set of transient status codes is the parameter `transient`. -/
def retryable (transient : Int → Bool) : AttemptResult → Bool
  | .response resp _ => transient resp.StatusCode
  | .transportError _ => true
  | .canceled => false

/-- Modelled from the spec: what the caller of `ExecuteRequest` of
`proxy-common/httpclient` (not among the sources) gets from an attempt that is
not retried: the response and its body, or the error. -/
def definitive : AttemptResult → Except GoString (HTTPResponse × GoString)
  | .response resp body => .ok (resp, body)
  | .transportError err => .error err
  | .canceled => .error (ascii "context canceled")

/-- Modelled from the spec: the retry loop of `ExecuteRequest` of
`proxy-common/httpclient`, which is not among the sources. Up to max attempts
are made; on a retryable failure a retry observation is emitted, the loop
sleeps for base backoff times the attempt number and retries unless the
attempts are exhausted; exhausting the attempts is surfaced as an error. The
upstream is `transport`: its answer to the call with a given number of earlier
calls. `remaining` attempts are left and `made` calls have been made. -/
def retryLoop (retryOpts : RetryOptions) (transient : Int → Bool)
    (transport : Nat → OutRequest → AttemptResult) (req : OutRequest) :
    Nat → Nat → Except GoString (HTTPResponse × GoString) × List RetryEvent
  | 0, _ => (.error (ascii "max retries exceeded"), [])
  | remaining + 1, made =>
    let result := transport made req
    if retryable transient result then
      let rest := retryLoop retryOpts transient transport req remaining (made + 1)
      (rest.1,
        .call (made + 1) :: .retryObserved ::
          .sleep (retryOpts.BaseBackoff * (made + 1)) :: rest.2)
    else
      (definitive result, [.call (made + 1)])

/-- Modelled from the spec: `HTTPClientWithRetries.ExecuteRequest` of
`proxy-common/httpclient`, which is not among the sources: the result of the
retry loop with the configured max attempts. -/
def ExecuteRequest (retryOpts : RetryOptions) (transient : Int → Bool)
    (transport : Nat → OutRequest → AttemptResult) (req : OutRequest) :
    Except GoString (HTTPResponse × GoString) :=
  (retryLoop retryOpts transient transport req retryOpts.MaxRetries.toNat 0).1

/-- The function `NewClient` of `client.go`: the client whose `httpClient` is
the retrying client made from `retryOpts`. The set of transient status codes and
the upstream are parameters. -/
def NewClient (apiKey : GoString) (baseURLs : GoString → Option GoString)
    (retryOpts : RetryOptions) (transient : Int → Bool)
    (transport : Nat → OutRequest → AttemptResult) : Client :=
  ⟨apiKey, baseURLs, ExecuteRequest retryOpts transient transport⟩

/-- The number of calls of the upstream among the events of a retry loop. -/
def callsMade : List RetryEvent → Nat
  | [] => 0
  | .call _ :: evs => callsMade evs + 1
  | _ :: evs => callsMade evs

/-- The number of calls that the upstream receives while the effects `es`
happen: the calls of the retry loop of every request executed. -/
def upstreamCallCount (retryOpts : RetryOptions) (transient : Int → Bool)
    (transport : Nat → OutRequest → AttemptResult) : List Effect → Nat
  | [] => 0
  | .executeRequest req :: es =>
    callsMade (retryLoop retryOpts transient transport req retryOpts.MaxRetries.toNat 0).2
      + upstreamCallCount retryOpts transient transport es
  | _ :: es => upstreamCallCount retryOpts transient transport es

/-- The status codes 429 and 5xx. -/
def transient429or5xx (status : Int) : Bool :=
  status == 429 || (500 ≤ status && status ≤ 599)

/-- An upstream that answers 503 to its first `failures` calls and 200 with the
body "ok" afterwards. -/
def flakyUpstream (failures : Nat) : Nat → OutRequest → AttemptResult :=
  fun made _ =>
    if made < failures then .response ⟨503, []⟩ (ascii "busy")
    else .response ⟨200, []⟩ (ascii "ok")

/-- An upstream that answers 503 to every call. -/
def brokenUpstream : Nat → OutRequest → AttemptResult :=
  fun _ _ => .response ⟨503, []⟩ (ascii "busy")

/-- Retry options with three attempts and a backoff of one second. -/
def sampleRetryOptions : RetryOptions :=
  ⟨3, Second, 10 * Second, 30 * Second, ascii "Alchemy"⟩

/-- The server of `sampleServer` with a retrying client on `transport`. -/
def sampleRetryServer (transport : Nat → OutRequest → AttemptResult) : Server :=
  ⟨NewClient (ascii "test-api-key")
    (fun k => if k = ascii "eth-mainnet" then some (ascii "https://alchemy.example") else none)
    sampleRetryOptions transient429or5xx transport⟩

/-! ## Theorems -/

theorem isPrefixOf_iff_append (sub s : GoString) :
    sub.isPrefixOf s = true ↔ ∃ post, s = sub ++ post := by
  rw [List.isPrefixOf_iff_prefix]
  constructor
  · rintro ⟨t, ht⟩
    exact ⟨t, ht.symm⟩
  · rintro ⟨t, ht⟩
    exact ⟨t, ht.symm⟩

theorem Index_neg_one_or_nonneg (s sub : GoString) :
    Index s sub = -1 ∨ 0 ≤ Index s sub := by
  induction s with
  | nil =>
    unfold Index
    split <;> simp
  | cons c s ih =>
    unfold Index
    split
    · simp
    · simp only
      split
      · simp
      · right
        rcases ih with h | h
        · contradiction
        · omega

theorem Index_eq_neg_one (s sub : GoString) (h : Index s sub = -1) :
    ¬ Occurs sub s := by
  induction s with
  | nil =>
    unfold Index at h
    split at h
    · simp at h
    · rename_i hp
      rintro ⟨pre, post, hs⟩
      apply hp
      rw [isPrefixOf_iff_append]
      have h1 : pre = [] := by
        cases pre with
        | nil => rfl
        | cons a t => simp at hs
      subst h1
      exact ⟨post, by simpa using hs⟩
  | cons c s ih =>
    unfold Index at h
    split at h
    · simp at h
    · rename_i hp
      simp only at h
      split at h
      · rename_i hi
        rintro ⟨pre, post, hs⟩
        cases pre with
        | nil =>
          apply hp
          rw [isPrefixOf_iff_append]
          exact ⟨post, by simpa using hs⟩
        | cons a t =>
          apply ih hi
          refine ⟨t, post, ?_⟩
          simp at hs
          simpa using hs.2
      · rcases Index_neg_one_or_nonneg s sub with h' | h'
        · contradiction
        · omega

theorem Index_first (s sub : GoString) (h : Index s sub ≠ -1) :
    ∃ pre post, FirstOccurrence sub s pre post ∧ Index s sub = pre.length := by
  induction s with
  | nil =>
    unfold Index at h ⊢
    split
    · rename_i hp
      rw [isPrefixOf_iff_append] at hp
      obtain ⟨post, hpost⟩ := hp
      exact ⟨[], post, ⟨by simpa using hpost, by simp⟩, by simp⟩
    · rename_i hp
      simp [hp] at h
  | cons c s ih =>
    unfold Index at h ⊢
    split
    · rename_i hp
      rw [isPrefixOf_iff_append] at hp
      obtain ⟨post, hpost⟩ := hp
      exact ⟨[], post, ⟨by simpa using hpost, by simp⟩, by simp⟩
    · rename_i hp
      simp only [hp] at h
      simp only
      split
      · rename_i hi
        simp [hi] at h
      · rename_i hi
        obtain ⟨pre, post, ⟨hs, hmin⟩, hlen⟩ := ih hi
        refine ⟨c :: pre, post, ⟨by simp [hs], ?_⟩, by simp [hlen]⟩
        intro pre' post' hs'
        cases pre' with
        | nil =>
          exfalso
          apply hp
          rw [isPrefixOf_iff_append]
          exact ⟨post', by simpa using hs'⟩
        | cons a t =>
          simp only [List.cons_append, List.cons.injEq] at hs'
          have := hmin t post' (by simpa using hs'.2)
          simp
          omega

theorem pathPrefix_eq : pathPrefix = [47, 110, 102, 116, 47, 118, 51, 47] := by decide

theorem ascii_slash : ascii "/" = [47] := by decide

theorem FirstOccurrence_unique (sub s pre post pre' post' : GoString)
    (h : FirstOccurrence sub s pre post) (h' : FirstOccurrence sub s pre' post') :
    pre = pre' ∧ post = post' := by
  have hlen : pre.length = pre'.length :=
    Nat.le_antisymm (h.2 pre' post' h'.1) (h'.2 pre post h.1)
  have heq : pre ++ (sub ++ post) = pre' ++ (sub ++ post') := by
    rw [← List.append_assoc, ← List.append_assoc, ← h.1, ← h'.1]
  have h1 := List.append_inj heq hlen
  exact ⟨h1.1, List.append_cancel_left h1.2⟩

theorem Index_of_first (sub s pre post : GoString) (h : FirstOccurrence sub s pre post) :
    Index s sub = pre.length := by
  have hne : Index s sub ≠ -1 := fun hi => Index_eq_neg_one s sub hi ⟨pre, post, h.1⟩
  obtain ⟨pre', post', hf, hlen⟩ := Index_first s sub hne
  rw [hlen, (FirstOccurrence_unique sub s pre post pre' post' h hf).1]

theorem ExtractAlchemyPath_of_first (r : Request) (pre post : GoString)
    (h : FirstOccurrence pathPrefix r.URL.Path pre post) :
    ExtractAlchemyPath r = 47 :: post := by
  have hi := Index_of_first pathPrefix r.URL.Path pre post h
  unfold ExtractAlchemyPath
  simp only [hi]
  rw [if_neg (by omega)]
  have hs : r.URL.Path = pre ++ ([47, 110, 102, 116, 47, 118, 51] ++ 47 :: post) := by
    rw [h.1, pathPrefix_eq]; simp
  have hl : (↑pre.length + ↑pathPrefix.length - 1 : Int).toNat
      = pre.length + [47, 110, 102, 116, 47, 118, 51].length := by
    rw [pathPrefix_eq]; simp; omega
  unfold sliceFrom
  rw [hl, hs, ← List.append_assoc, ← List.length_append, List.drop_left]

theorem ExtractAlchemyPath_of_not_occurs (r : Request)
    (h : ¬ Occurs pathPrefix r.URL.Path) : ExtractAlchemyPath r = [] := by
  unfold ExtractAlchemyPath
  simp only
  split
  · rfl
  · rename_i hi
    obtain ⟨pre, post, hf, _⟩ := Index_first r.URL.Path pathPrefix hi
    exact absurd ⟨pre, post, hf.1⟩ h

theorem exists_first_of_occurs (sub s : GoString) (h : Occurs sub s) :
    ∃ pre post, FirstOccurrence sub s pre post := by
  have hne : Index s sub ≠ -1 := fun hi => Index_eq_neg_one s sub hi h
  obtain ⟨pre, post, hf, _⟩ := Index_first s sub hne
  exact ⟨pre, post, hf⟩

/-- C1: for a request path that contains the marker "/nft/v3/", the marker has
a first occurrence and `ExtractAlchemyPath` returns "/" followed by everything
after that first occurrence, so the result is non-empty and starts with "/";
for a path that does not contain the marker the result is the empty string. -/
theorem ExtractAlchemyPath_contract (r : Request) :
    (Occurs pathPrefix r.URL.Path →
      (∃ pre post, FirstOccurrence pathPrefix r.URL.Path pre post) ∧
      (∀ pre post, FirstOccurrence pathPrefix r.URL.Path pre post →
        ExtractAlchemyPath r = ascii "/" ++ post) ∧
      ExtractAlchemyPath r ≠ [] ∧
      (ExtractAlchemyPath r).head? = some 47) ∧
    (¬ Occurs pathPrefix r.URL.Path → ExtractAlchemyPath r = []) := by
  refine ⟨fun h => ?_, ExtractAlchemyPath_of_not_occurs r⟩
  obtain ⟨pre, post, hf⟩ := exists_first_of_occurs _ _ h
  have he := ExtractAlchemyPath_of_first r pre post hf
  refine ⟨⟨pre, post, hf⟩, ?_, by simp [he], by simp [he]⟩
  intro pre' post' hf'
  rw [ExtractAlchemyPath_of_first r pre' post' hf', ascii_slash]
  rfl

theorem routedPath_eq (chain network rest : GoString) :
    routedPath chain network rest
      = 47 :: (chain ++ 47 :: (network ++ 47 :: 110 :: 102 :: 116 :: 47 :: 118 :: 51 :: 47 :: rest)) := by
  unfold routedPath
  rw [ascii_slash, pathPrefix_eq]
  simp

theorem split_at_slash (seg t p q : GoString) (hseg : 47 ∉ seg)
    (h : seg ++ t = p ++ 47 :: q) : ∃ p', p = seg ++ p' ∧ t = p' ++ 47 :: q := by
  induction seg generalizing p with
  | nil => exact ⟨p, by simp, by simpa using h⟩
  | cons a seg ih =>
    cases p with
    | nil =>
      simp only [List.cons_append, List.nil_append, List.cons.injEq] at h
      exact absurd h.1.symm (by intro h'; apply hseg; simp [h'])
    | cons b p =>
      simp only [List.cons_append, List.cons.injEq] at h
      obtain ⟨p', hp, ht⟩ := ih p (fun hm => hseg (List.mem_cons_of_mem _ hm)) h.2
      exact ⟨p', by simp [h.1, hp], ht⟩

theorem split_at_slash_unique (seg seg' t t' : GoString) (hseg : 47 ∉ seg)
    (hseg' : 47 ∉ seg') (h : seg ++ 47 :: t = seg' ++ 47 :: t') : seg = seg' ∧ t = t' := by
  obtain ⟨p', hp, ht⟩ := split_at_slash seg (47 :: t) seg' t' hseg h
  cases p' with
  | nil =>
    simp only [List.append_nil] at hp
    simp only [List.nil_append, List.cons.injEq, true_and] at ht
    exact ⟨hp.symm, ht⟩
  | cons a p' =>
    simp only [List.cons_append, List.cons.injEq] at ht
    exact absurd (by rw [hp, ← ht.1]; simp) hseg'

theorem routedPath_first (chain network rest : GoString)
    (hcs : 47 ∉ chain) (hns : 47 ∉ network)
    (hx : ¬ (chain = [110, 102, 116] ∧ network = [118, 51])) :
    FirstOccurrence pathPrefix (routedPath chain network rest)
      (ascii "/" ++ chain ++ ascii "/" ++ network) rest := by
  refine ⟨by simp [routedPath], ?_⟩
  intro pre post h
  rw [routedPath_eq, pathPrefix_eq] at h
  cases pre with
  | nil =>
    exfalso
    simp only [List.nil_append, List.cons_append, List.cons.injEq, true_and] at h
    have h1 := split_at_slash_unique chain [110, 102, 116] _ _ hcs (by decide) h
    have h2 := split_at_slash_unique network [118, 51] _ _ hns (by decide) h1.2
    exact hx ⟨h1.1, h2.1⟩
  | cons a p1 =>
    simp only [List.cons_append, List.append_assoc, List.cons.injEq] at h
    obtain ⟨p2, hp1, h2⟩ := split_at_slash chain _ p1 _ hcs h.2
    cases p2 with
    | nil =>
      exfalso
      simp only [List.nil_append, List.cons.injEq, true_and] at h2
      have h3 := split_at_slash_unique network [110, 102, 116] _ _ hns (by decide) h2
      simp at h3
    | cons b p3 =>
      simp only [List.cons_append, List.cons.injEq] at h2
      obtain ⟨p4, hp3, _⟩ := split_at_slash network _ p3 _ hns h2.2
      rw [ascii_slash, hp1, hp3]
      simp

/-- C2, amended: for every chain and network that are non-empty and contain no
"/", other than the pair chain "nft", network "v3", and every `rest`,
`ExtractAlchemyPath` applied to the routed path
"/" + chain + "/" + network + "/nft/v3/" + rest returns "/" + rest. -/
theorem ExtractAlchemyPath_routed (r : Request) (chain network rest : GoString)
    (_hc : chain ≠ []) (_hn : network ≠ []) (hcs : 47 ∉ chain) (hns : 47 ∉ network)
    (hx : ¬ (chain = ascii "nft" ∧ network = ascii "v3"))
    (hp : r.URL.Path = ascii "/" ++ chain ++ ascii "/" ++ network ++ pathPrefix ++ rest) :
    ExtractAlchemyPath r = ascii "/" ++ rest := by
  have hf := routedPath_first chain network rest hcs hns hx
  rw [routedPath, ← hp] at hf
  rw [ExtractAlchemyPath_of_first r _ _ hf, ascii_slash]
  rfl

/-- C2, witness: the routed path of chain "eth", network "mainnet". -/
theorem ExtractAlchemyPath_routed_witness :
    ExtractAlchemyPath
        ⟨ascii "GET", ⟨ascii "/eth/mainnet/nft/v3/getNFTsForOwner", ascii "owner=0x123"⟩,
          fun _ => none, .ok []⟩
      = ascii "/" ++ ascii "getNFTsForOwner" :=
  ExtractAlchemyPath_routed _ (ascii "eth") (ascii "mainnet") (ascii "getNFTsForOwner")
    (by decide) (by decide) (by decide) (by decide) (by decide) (by decide)

/-- C2, counterexample: chain "nft" and network "v3" are non-empty and contain
no "/", yet on the routed path "/nft/v3/nft/v3/getNFTsForOwner" the marker is
found at index 0 and the result is "/nft/v3/getNFTsForOwner", not
"/getNFTsForOwner". -/
theorem ExtractAlchemyPath_routed_counterexample :
    ascii "nft" ≠ [] ∧ ascii "v3" ≠ [] ∧ 47 ∉ ascii "nft" ∧ 47 ∉ ascii "v3" ∧
    ExtractAlchemyPath
        ⟨ascii "GET",
          ⟨ascii "/" ++ ascii "nft" ++ ascii "/" ++ ascii "v3" ++ pathPrefix
              ++ ascii "getNFTsForOwner", []⟩,
          fun _ => none, .ok []⟩
      = ascii "/nft/v3/getNFTsForOwner" ∧
    ExtractAlchemyPath
        ⟨ascii "GET",
          ⟨ascii "/" ++ ascii "nft" ++ ascii "/" ++ ascii "v3" ++ pathPrefix
              ++ ascii "getNFTsForOwner", []⟩,
          fun _ => none, .ok []⟩
      ≠ ascii "/" ++ ascii "getNFTsForOwner" := by
  decide

/-- C1, witness: a path with the marker and a path without it. -/
theorem ExtractAlchemyPath_contract_witness :
    ExtractAlchemyPath
        ⟨ascii "GET", ⟨ascii "/eth/mainnet/nft/v3/some/nested/endpoint", []⟩,
          fun _ => none, .ok []⟩ ≠ [] ∧
    ExtractAlchemyPath
        ⟨ascii "GET", ⟨ascii "/eth/mainnet/some/other/path", []⟩,
          fun _ => none, .ok []⟩ = [] :=
  ⟨((ExtractAlchemyPath_contract _).1
      ⟨ascii "/eth/mainnet", ascii "some/nested/endpoint", by decide⟩).2.2.1,
   (ExtractAlchemyPath_contract _).2
      (fun h => Index_eq_neg_one (ascii "/eth/mainnet/some/other/path") pathPrefix
        (by decide) h)⟩

/-! ### getBaseURL -/

theorem sameLetter_lower (a b : Nat) (h : sameLetter a b) :
    (if 65 ≤ b ∧ b ≤ 90 then b + 32 else b) = (if 65 ≤ a ∧ a ≤ 90 then a + 32 else a) := by
  rcases h with h | ⟨h1, h2, h3⟩ | ⟨h1, h2, h3⟩
  · rw [h]
  · subst h3
    rw [if_neg (by omega), if_pos ⟨h1, h2⟩]
  · subst h3
    rw [if_pos ⟨h1, h2⟩, if_neg (by omega)]

theorem ToLower_ascii (lib : Stdlib) (s : GoString) (h : ∀ c ∈ s, c < 128) :
    ToLower lib s = s.map (fun c => if 65 ≤ c ∧ c ≤ 90 then c + 32 else c) := by
  unfold ToLower
  rw [if_pos]
  simpa using h

theorem CaseVariation_ascii (s t : GoString) (h : CaseVariation s t) : ∀ c ∈ t, c < 128 := by
  obtain ⟨hs, hf⟩ := h
  induction hf with
  | nil => simp
  | cons hab _ ih =>
    intro c hc
    rcases List.mem_cons.1 hc with hc | hc
    · subst hc
      have := hs _ (List.mem_cons_self _ _)
      rcases hab with h | ⟨h1, h2, h3⟩ | ⟨h1, h2, h3⟩ <;> omega
    · exact ih (fun c hc => hs c (List.mem_cons_of_mem _ hc)) c hc

theorem ToLower_caseVariation (lib : Stdlib) (s t : GoString) (h : CaseVariation s t) :
    SameLowerCase lib t s := by
  unfold SameLowerCase
  rw [ToLower_ascii lib t (CaseVariation_ascii s t h), ToLower_ascii lib s h.1]
  have hf := h.2
  clear h
  induction hf with
  | nil => rfl
  | cons hab _ ih =>
    simp only [List.map_cons, List.cons.injEq]
    exact ⟨sameLetter_lower _ _ hab, ih⟩

/-- C3, amended: for every base-URL table and every route key configured in it
whose chain and network are in lower case (left as they are by
`strings.ToLower`), resolving with any upper/lower-case variation of that key's
chain and network returns the base URL that is configured for the key. The
variations are the strings that `strings.ToLower` maps to the same string, and
among them every string got by changing the case of ASCII letters. -/
theorem getBaseURL_case_insensitive (lib : Stdlib) (c : Client)
    (chain network chain' network' baseURL : GoString)
    (hk : c.baseURLs (chain ++ ascii "-" ++ network) = some baseURL)
    (hlc : ToLower lib chain = chain) (hln : ToLower lib network = network)
    (hc : SameLowerCase lib chain' chain ∨ CaseVariation chain chain')
    (hn : SameLowerCase lib network' network ∨ CaseVariation network network') :
    getBaseURL lib c chain' network' = .ok baseURL := by
  have hc' : ToLower lib chain' = chain := by
    rcases hc with h | h
    · rw [h, hlc]
    · rw [ToLower_caseVariation lib chain chain' h, hlc]
  have hn' : ToLower lib network' = network := by
    rcases hn with h | h
    · rw [h, hln]
    · rw [ToLower_caseVariation lib network network' h, hln]
  unfold getBaseURL
  simp only [hc', hn', hk]

/-- C3, witness: the key "eth-mainnet" resolved with chain "ETH" and network
"MainNet". -/
theorem getBaseURL_case_insensitive_witness :
    getBaseURL Stdlib.plain (sampleClient (ascii "eth-mainnet") upstreamDown)
        (ascii "ETH") (ascii "MainNet")
      = .ok (ascii "https://alchemy.example") :=
  getBaseURL_case_insensitive Stdlib.plain _ (ascii "eth") (ascii "mainnet")
    (ascii "ETH") (ascii "MainNet") _ (by decide) (by decide) (by decide)
    (Or.inl (by unfold SameLowerCase; decide)) (Or.inl (by unfold SameLowerCase; decide))

/-- C3, counterexample: in a table whose only key is "ETH-mainnet", that key is
configured, and resolving with its own chain "ETH" and network "mainnet", or
with the variation "eth" and "mainnet", fails whatever the standard library
does beyond ASCII: the lookup is made with "eth-mainnet". -/
theorem getBaseURL_case_insensitive_counterexample :
    (sampleClient (ascii "ETH-mainnet") upstreamDown).baseURLs
        (ascii "ETH" ++ ascii "-" ++ ascii "mainnet")
      = some (ascii "https://alchemy.example") ∧
    ¬ (∃ lib : Stdlib,
        getBaseURL lib (sampleClient (ascii "ETH-mainnet") upstreamDown)
            (ascii "ETH") (ascii "mainnet")
          = .ok (ascii "https://alchemy.example")) ∧
    ¬ (∃ lib : Stdlib,
        getBaseURL lib (sampleClient (ascii "ETH-mainnet") upstreamDown)
            (ascii "eth") (ascii "mainnet")
          = .ok (ascii "https://alchemy.example")) := by
  refine ⟨by decide, ?_, ?_⟩
  · rintro ⟨lib, h⟩
    have h1 : ToLower lib (ascii "ETH") = ascii "eth" := by
      rw [ToLower_ascii lib _ (by decide)]; decide
    have h2 : ToLower lib (ascii "mainnet") = ascii "mainnet" := by
      rw [ToLower_ascii lib _ (by decide)]; decide
    have h3 : (sampleClient (ascii "ETH-mainnet") upstreamDown).baseURLs
        (ascii "eth" ++ ascii "-" ++ ascii "mainnet") = none := by decide
    unfold getBaseURL at h
    simp only [h1, h2, h3] at h
    exact absurd h (by simp)
  · rintro ⟨lib, h⟩
    have h1 : ToLower lib (ascii "eth") = ascii "eth" := by
      rw [ToLower_ascii lib _ (by decide)]; decide
    have h2 : ToLower lib (ascii "mainnet") = ascii "mainnet" := by
      rw [ToLower_ascii lib _ (by decide)]; decide
    have h3 : (sampleClient (ascii "ETH-mainnet") upstreamDown).baseURLs
        (ascii "eth" ++ ascii "-" ++ ascii "mainnet") = none := by decide
    unfold getBaseURL at h
    simp only [h1, h2, h3] at h
    exact absurd h (by simp)

/-! ### ProxyGET and ProxyPOST -/

theorem getBaseURL_of_lookup (lib : Stdlib) (c : Client) (chain network : GoString) :
    getBaseURL lib c chain network
      = match c.baseURLs (ToLower lib chain ++ ascii "-" ++ ToLower lib network) with
        | none => .error (.unsupportedChain chain network)
        | some baseURL => .ok baseURL := rfl

theorem ProxyGET_of_route (lib : Stdlib) (c : Client) (chain network B P Q : GoString)
    (hB : c.baseURLs (ToLower lib chain ++ ascii "-" ++ ToLower lib network) = some B)
    (url : GoString)
    (hurl : url = if Q ≠ [] then B ++ ascii "/nft/v3/" ++ c.apiKey ++ P ++ ascii "?" ++ Q
      else B ++ ascii "/nft/v3/" ++ c.apiKey ++ P) :
    (ProxyGET lib c chain network P Q).2
      = .newRequest (ascii "GET") url none ::
          (if lib.parseURL url then
            [.executeRequest
              ⟨ascii "GET", url, none, [(ascii "Accept", ascii "application/json")]⟩]
          else []) := by
  unfold ProxyGET
  rw [getBaseURL_of_lookup, hB]
  simp only [NewRequestWithContext, ← hurl]
  cases hp : lib.parseURL url
  · simp
  · simp only [if_true]
    cases c.httpClient _ with
    | error e => rfl
    | ok v => rfl

theorem ProxyPOST_of_route (lib : Stdlib) (c : Client) (chain network B P body : GoString)
    (hB : c.baseURLs (ToLower lib chain ++ ascii "-" ++ ToLower lib network) = some B) :
    (ProxyPOST lib c chain network P body).2
      = .newRequest (ascii "POST") (B ++ ascii "/nft/v3/" ++ c.apiKey ++ P)
            (if body.length > 0 then some body else none) ::
          (if lib.parseURL (B ++ ascii "/nft/v3/" ++ c.apiKey ++ P) then
            [.executeRequest
              ⟨ascii "POST", B ++ ascii "/nft/v3/" ++ c.apiKey ++ P,
                if body.length > 0 then some body else none,
                [(ascii "Accept", ascii "application/json"),
                 (ascii "Content-Type", ascii "application/json")]⟩]
          else []) := by
  unfold ProxyPOST
  rw [getBaseURL_of_lookup, hB]
  simp only [NewRequestWithContext]
  cases hp : lib.parseURL (B ++ ascii "/nft/v3/" ++ c.apiKey ++ P)
  · simp
  · simp only [if_true]
    cases c.httpClient _ with
    | error e => rfl
    | ok v => rfl

/-- C4: for every configured route with base URL `B`, API key `K`, path `P`
and raw query `Q`, `ProxyGET` builds its request for the URL
`B + "/nft/v3/" + K + P + "?" + Q` when `Q` is non-empty and for
`B + "/nft/v3/" + K + P` when `Q` is empty, and `ProxyPOST` builds its request
for `B + "/nft/v3/" + K + P`; the request built is the one request executed
(when `http.NewRequestWithContext` accepts the URL), with that URL. -/
theorem Proxy_upstream_url (lib : Stdlib) (c : Client) (chain network B P Q body : GoString)
    (hB : c.baseURLs (ToLower lib chain ++ ascii "-" ++ ToLower lib network) = some B) :
    (Q ≠ [] →
      (ProxyGET lib c chain network P Q).2
        = .newRequest (ascii "GET")
              (B ++ ascii "/nft/v3/" ++ c.apiKey ++ P ++ ascii "?" ++ Q) none ::
            (if lib.parseURL (B ++ ascii "/nft/v3/" ++ c.apiKey ++ P ++ ascii "?" ++ Q) then
              [.executeRequest
                ⟨ascii "GET", B ++ ascii "/nft/v3/" ++ c.apiKey ++ P ++ ascii "?" ++ Q, none,
                  [(ascii "Accept", ascii "application/json")]⟩]
            else [])) ∧
    (Q = [] →
      (ProxyGET lib c chain network P Q).2
        = .newRequest (ascii "GET") (B ++ ascii "/nft/v3/" ++ c.apiKey ++ P) none ::
            (if lib.parseURL (B ++ ascii "/nft/v3/" ++ c.apiKey ++ P) then
              [.executeRequest
                ⟨ascii "GET", B ++ ascii "/nft/v3/" ++ c.apiKey ++ P, none,
                  [(ascii "Accept", ascii "application/json")]⟩]
            else [])) ∧
    (ProxyPOST lib c chain network P body).2
      = .newRequest (ascii "POST") (B ++ ascii "/nft/v3/" ++ c.apiKey ++ P)
            (if body.length > 0 then some body else none) ::
          (if lib.parseURL (B ++ ascii "/nft/v3/" ++ c.apiKey ++ P) then
            [.executeRequest
              ⟨ascii "POST", B ++ ascii "/nft/v3/" ++ c.apiKey ++ P,
                if body.length > 0 then some body else none,
                [(ascii "Accept", ascii "application/json"),
                 (ascii "Content-Type", ascii "application/json")]⟩]
          else []) := by
  refine ⟨fun hQ => ?_, fun hQ => ?_, ProxyPOST_of_route lib c chain network B P body hB⟩
  · exact ProxyGET_of_route lib c chain network B P Q hB _ (by rw [if_pos hQ])
  · exact ProxyGET_of_route lib c chain network B P Q hB _ (by rw [if_neg (by simp [hQ])])

/-- C4, witness: a GET with the query "owner=0x123" on the route "eth-mainnet". -/
theorem Proxy_upstream_url_witness :
    (ProxyGET Stdlib.plain (sampleClient (ascii "eth-mainnet") upstreamDown)
        (ascii "eth") (ascii "mainnet") (ascii "/getNFTsForOwner") (ascii "owner=0x123")).2
      = [.newRequest (ascii "GET")
            (ascii "https://alchemy.example/nft/v3/test-api-key/getNFTsForOwner?owner=0x123")
            none,
         .executeRequest
            ⟨ascii "GET",
              ascii "https://alchemy.example/nft/v3/test-api-key/getNFTsForOwner?owner=0x123",
              none, [(ascii "Accept", ascii "application/json")]⟩] :=
  (Proxy_upstream_url Stdlib.plain (sampleClient (ascii "eth-mainnet") upstreamDown)
    (ascii "eth") (ascii "mainnet") (ascii "https://alchemy.example")
    (ascii "/getNFTsForOwner") (ascii "owner=0x123") [] (by decide)).1 (by decide)

/-- C6: for every chain and network whose lower-cased key "chain-network" is
not in the base-URL table, `ProxyGET` and `ProxyPOST` return the
unsupported-chain error with a nil body and status 0, and have no effect: no
request is built and none is executed, for no URL. -/
theorem Proxy_unknown_route (lib : Stdlib) (c : Client) (chain network P Q body : GoString)
    (h : c.baseURLs (ToLower lib chain ++ ascii "-" ++ ToLower lib network) = none) :
    ProxyGET lib c chain network P Q
      = (⟨[], 0, some (.unsupportedChain chain network)⟩, []) ∧
    ProxyPOST lib c chain network P body
      = (⟨[], 0, some (.unsupportedChain chain network)⟩, []) := by
  unfold ProxyGET ProxyPOST
  rw [getBaseURL_of_lookup, h]
  exact ⟨rfl, rfl⟩

/-- C6, witness: the chain "unsupported" on a table with the key "eth-mainnet". -/
theorem Proxy_unknown_route_witness :
    ProxyGET Stdlib.plain (sampleClient (ascii "eth-mainnet") (upstreamAnswers 200 [] []))
        (ascii "unsupported") (ascii "mainnet") (ascii "/getNFTsForOwner") (ascii "owner=0x123")
      = (⟨[], 0, some (.unsupportedChain (ascii "unsupported") (ascii "mainnet"))⟩, []) ∧
    ProxyPOST Stdlib.plain (sampleClient (ascii "eth-mainnet") (upstreamAnswers 200 [] []))
        (ascii "unsupported") (ascii "mainnet") (ascii "/getNFTsForOwner") (ascii "x")
      = (⟨[], 0, some (.unsupportedChain (ascii "unsupported") (ascii "mainnet"))⟩, []) :=
  Proxy_unknown_route Stdlib.plain _ (ascii "unsupported") (ascii "mainnet")
    (ascii "/getNFTsForOwner") (ascii "owner=0x123") (ascii "x") (by decide)

theorem ProxyGET_outcome (lib : Stdlib) (c : Client) (chain network P Q : GoString) :
    ClientOutcome c (ProxyGET lib c chain network P Q) := by
  unfold ProxyGET ClientOutcome
  cases getBaseURL lib c chain network with
  | error err => exact Or.inl ⟨err, rfl⟩
  | ok B =>
    simp only [NewRequestWithContext]
    generalize (if Q ≠ [] then B ++ ascii "/nft/v3/" ++ c.apiKey ++ P ++ ascii "?" ++ Q
      else B ++ ascii "/nft/v3/" ++ c.apiKey ++ P) = url
    cases hp : lib.parseURL url
    · simp only [Bool.false_eq_true, if_false]
      exact Or.inr (Or.inl ⟨_, _, _, rfl⟩)
    · simp only [if_true]
      generalize hreq : OutRequest.mk (ascii "GET") url none
        (Header.Set [] (ascii "Accept") (ascii "application/json")) = req
      cases hx : c.httpClient req with
      | error e => exact Or.inr (Or.inr (Or.inl ⟨_, _, _, _, e, hx, rfl⟩))
      | ok v => exact Or.inr (Or.inr (Or.inr ⟨_, _, _, _, v.1, v.2, hx, rfl⟩))

theorem ProxyPOST_outcome (lib : Stdlib) (c : Client) (chain network P body : GoString) :
    ClientOutcome c (ProxyPOST lib c chain network P body) := by
  unfold ProxyPOST ClientOutcome
  cases getBaseURL lib c chain network with
  | error err => exact Or.inl ⟨err, rfl⟩
  | ok B =>
    simp only [NewRequestWithContext]
    generalize B ++ ascii "/nft/v3/" ++ c.apiKey ++ P = url
    generalize (if body.length > 0 then some body else none) = reqBody
    cases hp : lib.parseURL url
    · simp only [Bool.false_eq_true, if_false]
      exact Or.inr (Or.inl ⟨_, _, _, rfl⟩)
    · simp only [if_true]
      generalize hreq : OutRequest.mk (ascii "POST") url reqBody
        (Header.Set (Header.Set [] (ascii "Content-Type") (ascii "application/json"))
          (ascii "Accept") (ascii "application/json")) = req
      cases hx : c.httpClient req with
      | error e => exact Or.inr (Or.inr (Or.inl ⟨_, _, _, _, e, hx, rfl⟩))
      | ok v => exact Or.inr (Or.inr (Or.inr ⟨_, _, _, _, v.1, v.2, hx, rfl⟩))

/-! ### handleProxy -/

theorem ExtractAlchemyPath_eq_nil_iff (r : Request) :
    ExtractAlchemyPath r = [] ↔ ¬ Occurs pathPrefix r.URL.Path := by
  constructor
  · intro h hocc
    obtain ⟨pre, post, hf⟩ := exists_first_of_occurs _ _ hocc
    rw [ExtractAlchemyPath_of_first r pre post hf] at h
    exact absurd h (by simp)
  · exact ExtractAlchemyPath_of_not_occurs r

theorem encodeErrorJSON_safe (lib : Stdlib) (message : GoString)
    (h : message.all jsonSafe = true) :
    encodeErrorJSON lib message
      = ascii "\x7b\"error\":\"" ++ message ++ ascii "\"\x7d\n" := by
  unfold encodeErrorJSON jsonString
  rw [if_pos h]
  have h1 : ascii "\x7b\"error\":\"" = ascii "\x7b\"error\":" ++ ascii "\"" := by decide
  have h2 : ascii "\"\x7d\n" = ascii "\"" ++ ascii "\x7d\n" := by decide
  rw [h1, h2]
  simp

/-- The traces of `handleProxy`, branch by branch. -/
theorem handleProxy_cases (lib : Stdlib) (s : Server) (r : Request) :
    (¬ Occurs pathPrefix r.URL.Path ∧
      handleProxy lib s r
        = .log (ascii "Failed to extract Alchemy path from request") ::
            writeError lib (ascii "Invalid request path") 400) ∨
    (Occurs pathPrefix r.URL.Path ∧ r.Method ≠ ascii "GET" ∧ r.Method ≠ ascii "POST" ∧
      handleProxy lib s r = writeError lib (ascii "Method not allowed") 405) ∨
    (Occurs pathPrefix r.URL.Path ∧ r.Method = ascii "POST" ∧ (∃ e, r.Body = .error e) ∧
      handleProxy lib s r
        = .readAll :: .log (ascii "Failed to read request body") ::
            writeError lib (ascii "Invalid request body") 400) ∨
    (Occurs pathPrefix r.URL.Path ∧ r.Method = ascii "GET" ∧
      handleProxy lib s r
        = .proxyGET (routeVar r (ascii "chain")) (routeVar r (ascii "network"))
              (ExtractAlchemyPath r) r.URL.RawQuery ::
            handleProxyRespond lib
              (ProxyGET lib s.alchemyClient (routeVar r (ascii "chain"))
                (routeVar r (ascii "network")) (ExtractAlchemyPath r) r.URL.RawQuery)) ∨
    (Occurs pathPrefix r.URL.Path ∧ r.Method = ascii "POST" ∧ ∃ body, r.Body = .ok body ∧
      handleProxy lib s r
        = .readAll ::
            .proxyPOST (routeVar r (ascii "chain")) (routeVar r (ascii "network"))
              (ExtractAlchemyPath r) body ::
            handleProxyRespond lib
              (ProxyPOST lib s.alchemyClient (routeVar r (ascii "chain"))
                (routeVar r (ascii "network")) (ExtractAlchemyPath r) body)) := by
  by_cases hocc : Occurs pathPrefix r.URL.Path
  · have hne : ExtractAlchemyPath r ≠ [] := fun h => (ExtractAlchemyPath_eq_nil_iff r).1 h hocc
    by_cases hg : r.Method = ascii "GET"
    · refine Or.inr (Or.inr (Or.inr (Or.inl ⟨hocc, hg, ?_⟩)))
      unfold handleProxy
      simp only [hne, hg, if_true, if_false]
      rfl
    · by_cases hp : r.Method = ascii "POST"
      · cases hb : r.Body with
        | error e =>
          refine Or.inr (Or.inr (Or.inl ⟨hocc, hp, ⟨e, rfl⟩, ?_⟩))
          unfold handleProxy
          have hpg : ascii "POST" ≠ ascii "GET" := by decide
          simp only [hne, hp, hpg, hb, if_true, if_false]
        | ok body =>
          refine Or.inr (Or.inr (Or.inr (Or.inr ⟨hocc, hp, body, rfl, ?_⟩)))
          unfold handleProxy
          have hpg : ascii "POST" ≠ ascii "GET" := by decide
          simp only [hne, hp, hpg, hb, if_true, if_false]
          rfl
      · refine Or.inr (Or.inl ⟨hocc, hg, hp, ?_⟩)
        unfold handleProxy
        simp only [hne, hg, hp, if_false]
  · refine Or.inl ⟨hocc, ?_⟩
    unfold handleProxy
    simp only [(ExtractAlchemyPath_eq_nil_iff r).2 hocc, if_true]

/-- The traces of the statements that follow the `switch`, outcome by outcome. -/
theorem handleProxyRespond_cases (lib : Stdlib) (c : Client) (call : ProxyResult × List Effect)
    (h : ClientOutcome c call) :
    (∃ err, call.1.err = some err ∧
      handleProxyRespond lib call
        = .log (ascii "Alchemy API error") ::
            writeError lib (ascii "Failed to proxy request") 502) ∨
    (∃ m url b, call.1.err = some .createRequest ∧
      handleProxyRespond lib call
        = .newRequest m url b :: .log (ascii "Alchemy API error") ::
            writeError lib (ascii "Failed to proxy request") 502) ∨
    (∃ m url b req e, c.httpClient req = .error e ∧ call.1.err = some (.requestFailed e) ∧
      handleProxyRespond lib call
        = .newRequest m url b :: .executeRequest req :: .log (ascii "Alchemy API error") ::
            writeError lib (ascii "Failed to proxy request") 502) ∨
    (∃ m url b req resp R, c.httpClient req = .ok (resp, R) ∧
      call.1 = ⟨R, resp.StatusCode, none⟩ ∧
      handleProxyRespond lib call
        = [.newRequest m url b, .executeRequest req,
           .headerSet (ascii "Content-Type") (ascii "application/json"),
           .writeHeader resp.StatusCode, .write R]) := by
  rcases h with ⟨err, h⟩ | ⟨m, url, b, h⟩ | ⟨m, url, b, req, e, hx, h⟩ |
    ⟨m, url, b, req, resp, R, hx, h⟩
  · subst h
    exact Or.inl ⟨err, rfl, rfl⟩
  · subst h
    exact Or.inr (Or.inl ⟨m, url, b, rfl, rfl⟩)
  · subst h
    exact Or.inr (Or.inr (Or.inl ⟨m, url, b, req, e, hx, rfl, rfl⟩))
  · subst h
    exact Or.inr (Or.inr (Or.inr ⟨m, url, b, req, resp, R, hx, rfl, rfl⟩))

/-- When a request executed by the client call comes back with a response, the
trace after the `switch` is the relay of that response. -/
theorem handleProxyRespond_of_execute (lib : Stdlib) (c : Client)
    (call : ProxyResult × List Effect) (h : ClientOutcome c call)
    (req : OutRequest) (resp : HTTPResponse) (R : GoString)
    (hcall : .executeRequest req ∈ handleProxyRespond lib call)
    (hok : c.httpClient req = .ok (resp, R)) :
    ∃ m url b, handleProxyRespond lib call
      = [.newRequest m url b, .executeRequest req,
         .headerSet (ascii "Content-Type") (ascii "application/json"),
         .writeHeader resp.StatusCode, .write R] := by
  rcases handleProxyRespond_cases lib c call h with ⟨err, _, hT⟩ | ⟨m, url, b, _, hT⟩ |
    ⟨m, url, b, req', e, hx, _, hT⟩ | ⟨m, url, b, req', resp', R', hx, _, hT⟩
  · rw [hT] at hcall
    simp [writeError] at hcall
  · rw [hT] at hcall
    simp [writeError] at hcall
  · rw [hT] at hcall
    simp [writeError] at hcall
    subst hcall
    rw [hx] at hok
    exact absurd hok (by simp)
  · rw [hT] at hcall
    simp at hcall
    subst hcall
    rw [hx] at hok
    simp only [Except.ok.injEq, Prod.mk.injEq] at hok
    obtain ⟨h1, h2⟩ := hok
    subst h1 h2
    exact ⟨m, url, b, hT⟩

/-- When a request executed for an inbound request comes back with a response,
the whole trace of `handleProxy` is: the client call, the request built and
executed, and the relay of the response. -/
theorem handleProxy_of_execute (lib : Stdlib) (s : Server) (r : Request)
    (req : OutRequest) (resp : HTTPResponse) (R : GoString)
    (hcall : .executeRequest req ∈ handleProxy lib s r)
    (hok : s.alchemyClient.httpClient req = .ok (resp, R)) :
    ∃ pre, writerCalls pre = [] ∧ responseHeader pre [] = [] ∧
      (∀ e ∈ pre, ∀ st, e ≠ .writeHeader st) ∧
      handleProxy lib s r
        = pre ++ [.headerSet (ascii "Content-Type") (ascii "application/json"),
                  .writeHeader resp.StatusCode, .write R] := by
  rcases handleProxy_cases lib s r with ⟨_, hT⟩ | ⟨_, _, _, hT⟩ | ⟨_, _, _, hT⟩ |
    ⟨_, _, hT⟩ | ⟨_, _, body, _, hT⟩
  · rw [hT] at hcall
    simp [writeError] at hcall
  · rw [hT] at hcall
    simp [writeError] at hcall
  · rw [hT] at hcall
    simp [writeError] at hcall
  · rw [hT] at hcall ⊢
    simp only [List.mem_cons, reduceCtorEq, false_or] at hcall
    obtain ⟨m, url, b, hR⟩ := handleProxyRespond_of_execute lib _ _
      (ProxyGET_outcome lib s.alchemyClient _ _ _ _) req resp R hcall hok
    rw [hR]
    exact ⟨[.proxyGET _ _ _ _, .newRequest m url b, .executeRequest req],
      rfl, rfl, by simp, rfl⟩
  · rw [hT] at hcall ⊢
    simp only [List.mem_cons, reduceCtorEq, false_or] at hcall
    obtain ⟨m, url, b, hR⟩ := handleProxyRespond_of_execute lib _ _
      (ProxyPOST_outcome lib s.alchemyClient _ _ _ _) req resp R hcall hok
    rw [hR]
    exact ⟨[.readAll, .proxyPOST _ _ _ _, .newRequest m url b, .executeRequest req],
      rfl, rfl, by simp, rfl⟩

theorem writerCalls_append (es es' : List Effect) :
    writerCalls (es ++ es') = writerCalls es ++ writerCalls es' := by
  unfold writerCalls
  exact List.filter_append _ _

/-- C5: for every request for which the upstream call made by `handleProxy`
(the request that the client executes) returns without error, with status `S`
and body bytes `R`, the calls on the response writer are exactly: set the
content type, write status `S`, write the bytes `R`. -/
theorem handleProxy_relay (lib : Stdlib) (s : Server) (r : Request)
    (req : OutRequest) (resp : HTTPResponse) (R : GoString)
    (hcall : .executeRequest req ∈ handleProxy lib s r)
    (hok : s.alchemyClient.httpClient req = .ok (resp, R)) :
    writerCalls (handleProxy lib s r)
      = [.headerSet (ascii "Content-Type") (ascii "application/json"),
         .writeHeader resp.StatusCode, .write R] := by
  obtain ⟨pre, hpre, _, _, hT⟩ := handleProxy_of_execute lib s r req resp R hcall hok
  rw [hT, writerCalls_append, hpre]
  rfl

/-- C5, witness: an upstream 404 with the body "not found" is relayed as it is. -/
theorem handleProxy_relay_witness :
    writerCalls (handleProxy Stdlib.plain
        (sampleServer (upstreamAnswers 404 (ascii "text/plain") (ascii "not found"))) sampleGET)
      = [.headerSet (ascii "Content-Type") (ascii "application/json"),
         .writeHeader 404, .write (ascii "not found")] :=
  handleProxy_relay Stdlib.plain
    (sampleServer (upstreamAnswers 404 (ascii "text/plain") (ascii "not found"))) sampleGET
    sampleUpstreamGET ⟨404, [(ascii "Content-Type", ascii "text/plain")]⟩ (ascii "not found")
    (by decide) rfl

theorem responseHeader_append (pre es : List Effect) (h : Header)
    (hpre : ∀ e ∈ pre, ∀ st, e ≠ .writeHeader st) :
    responseHeader (pre ++ es) h = responseHeader es (responseHeader pre h) := by
  induction pre generalizing h with
  | nil => rfl
  | cons e pre ih =>
    have ih' := fun h' => ih h' (fun e he => hpre e (List.mem_cons_of_mem _ he))
    cases e with
    | writeHeader st => exact absurd rfl (hpre _ (List.mem_cons_self _ _) st)
    | headerSet k v => exact ih' _
    | log m => exact ih' _
    | readAll => exact ih' _
    | proxyGET a b c d => exact ih' _
    | proxyPOST a b c d => exact ih' _
    | newRequest a b c => exact ih' _
    | executeRequest a => exact ih' _
    | write b => exact ih' _

/-- C10, amended: on every successful proxied request (the request executed
upstream came back with a response), the Content-Type header of the response
written by `handleProxy` is "application/json", whatever content type the
upstream response declares. -/
theorem handleProxy_content_type (lib : Stdlib) (s : Server) (r : Request)
    (req : OutRequest) (resp : HTTPResponse) (R : GoString)
    (hcall : .executeRequest req ∈ handleProxy lib s r)
    (hok : s.alchemyClient.httpClient req = .ok (resp, R)) :
    (responseHeader (handleProxy lib s r) []).Get (ascii "Content-Type")
      = ascii "application/json" := by
  obtain ⟨pre, _, hh, hpre, hT⟩ := handleProxy_of_execute lib s r req resp R hcall hok
  rw [hT, responseHeader_append pre _ [] hpre, hh]
  have h1 : responseHeader
      [.headerSet (ascii "Content-Type") (ascii "application/json"),
       .writeHeader resp.StatusCode, .write R] []
      = [(ascii "Content-Type", ascii "application/json")] := rfl
  rw [h1]
  decide

/-- C10, witness: an upstream answer declared as "application/json". -/
theorem handleProxy_content_type_witness :
    (responseHeader (handleProxy Stdlib.plain
        (sampleServer (upstreamAnswers 200 (ascii "application/json") (ascii "[]"))) sampleGET)
      []).Get (ascii "Content-Type") = ascii "application/json" :=
  handleProxy_content_type Stdlib.plain
    (sampleServer (upstreamAnswers 200 (ascii "application/json") (ascii "[]"))) sampleGET
    sampleUpstreamGET ⟨200, [(ascii "Content-Type", ascii "application/json")]⟩ (ascii "[]")
    (by decide) rfl

/-- C10, counterexample: the upstream answers the request of `sampleGET` with
status 200 and the content type "text/plain"; the request is proxied
successfully and the response is written with the content type
"application/json". -/
theorem handleProxy_content_type_counterexample :
    (sampleServer (upstreamAnswers 200 (ascii "text/plain") (ascii "hello"))).alchemyClient.httpClient
        sampleUpstreamGET
      = .ok (⟨200, [(ascii "Content-Type", ascii "text/plain")]⟩, ascii "hello") ∧
    Effect.executeRequest sampleUpstreamGET ∈
      handleProxy Stdlib.plain
        (sampleServer (upstreamAnswers 200 (ascii "text/plain") (ascii "hello"))) sampleGET ∧
    writerCalls (handleProxy Stdlib.plain
        (sampleServer (upstreamAnswers 200 (ascii "text/plain") (ascii "hello"))) sampleGET)
      = [.headerSet (ascii "Content-Type") (ascii "application/json"),
         .writeHeader 200, .write (ascii "hello")] ∧
    (responseHeader (handleProxy Stdlib.plain
        (sampleServer (upstreamAnswers 200 (ascii "text/plain") (ascii "hello"))) sampleGET)
      []).Get (ascii "Content-Type")
      ≠ Header.Get [(ascii "Content-Type", ascii "text/plain")] (ascii "Content-Type") := by
  refine ⟨rfl, by decide, by decide, by decide⟩

/-- C9: for every request whose method is neither GET nor POST and whose path
contains the marker, `handleProxy` does nothing but write the error response:
content type "application/json", status 405 and the JSON object with the
single field "error": "Method not allowed" (as the encoder writes it, followed
by a newline); there is no call on the upstream side. -/
theorem handleProxy_method_not_allowed (lib : Stdlib) (s : Server) (r : Request)
    (hocc : Occurs pathPrefix r.URL.Path)
    (hg : r.Method ≠ ascii "GET") (hp : r.Method ≠ ascii "POST") :
    handleProxy lib s r
      = [.headerSet (ascii "Content-Type") (ascii "application/json"),
         .writeHeader 405,
         .write (ascii "\x7b\"error\":\"Method not allowed\"\x7d\n")] ∧
    upstreamCalls (handleProxy lib s r) = [] := by
  have hT : handleProxy lib s r = writeError lib (ascii "Method not allowed") 405 := by
    rcases handleProxy_cases lib s r with ⟨h, _⟩ | ⟨_, _, _, hT⟩ | ⟨_, h, _⟩ |
      ⟨_, h, _⟩ | ⟨_, h, _⟩
    · exact absurd hocc h
    · exact hT
    · exact absurd h hp
    · exact absurd h hg
    · exact absurd h hp
  have hb := encodeErrorJSON_safe lib (ascii "Method not allowed") (by decide)
  rw [hT]
  unfold writeError
  rw [hb]
  exact ⟨by decide, by decide⟩

/-- C9, witness: a PUT on a proxy path. -/
theorem handleProxy_method_not_allowed_witness :
    handleProxy Stdlib.plain (sampleServer upstreamDown)
        (sampleRequest (ascii "PUT") (ascii "/eth/mainnet/nft/v3/getNFTsForOwner") [] [])
      = [.headerSet (ascii "Content-Type") (ascii "application/json"),
         .writeHeader 405,
         .write (ascii "\x7b\"error\":\"Method not allowed\"\x7d\n")] ∧
    upstreamCalls (handleProxy Stdlib.plain (sampleServer upstreamDown)
        (sampleRequest (ascii "PUT") (ascii "/eth/mainnet/nft/v3/getNFTsForOwner") [] []))
      = [] :=
  handleProxy_method_not_allowed Stdlib.plain (sampleServer upstreamDown)
    (sampleRequest (ascii "PUT") (ascii "/eth/mainnet/nft/v3/getNFTsForOwner") [] [])
    ⟨ascii "/eth/mainnet", ascii "getNFTsForOwner", by decide⟩ (by decide) (by decide)

/-- When the client call that `handleProxy` makes returns an error, the trace
ends with the log entry and the error response, and nothing is written before. -/
theorem handleProxy_of_client_error (lib : Stdlib) (s : Server) (r : Request)
    (herr :
      (∃ chain network path rawQuery,
        .proxyGET chain network path rawQuery ∈ handleProxy lib s r ∧
        (ProxyGET lib s.alchemyClient chain network path rawQuery).1.err ≠ none) ∨
      (∃ chain network path body,
        .proxyPOST chain network path body ∈ handleProxy lib s r ∧
        (ProxyPOST lib s.alchemyClient chain network path body).1.err ≠ none)) :
    ∃ pre, writerCalls pre = [] ∧
      handleProxy lib s r
        = pre ++ .log (ascii "Alchemy API error") ::
            writeError lib (ascii "Failed to proxy request") 502 := by
  rcases handleProxy_cases lib s r with ⟨_, hT⟩ | ⟨_, _, _, hT⟩ | ⟨_, _, _, hT⟩ |
    ⟨_, _, hT⟩ | ⟨_, _, body, _, hT⟩
  · rw [hT] at herr
    simp [writeError] at herr
  · rw [hT] at herr
    simp [writeError] at herr
  · rw [hT] at herr
    simp [writeError] at herr
  · rw [hT] at herr ⊢
    rcases handleProxyRespond_cases lib _ _
        (ProxyGET_outcome lib s.alchemyClient (routeVar r (ascii "chain"))
          (routeVar r (ascii "network")) (ExtractAlchemyPath r) r.URL.RawQuery)
      with ⟨err, _, hR⟩ | ⟨m, url, b, _, hR⟩ | ⟨m, url, b, req, e, _, _, hR⟩ |
        ⟨m, url, b, req, resp, R, _, he, hR⟩
    · rw [hR]
      exact ⟨[.proxyGET _ _ _ _], rfl, rfl⟩
    · rw [hR]
      exact ⟨[.proxyGET _ _ _ _, .newRequest m url b], rfl, rfl⟩
    · rw [hR]
      exact ⟨[.proxyGET _ _ _ _, .newRequest m url b, .executeRequest req], rfl, rfl⟩
    · exfalso
      rw [hR] at herr
      simp at herr
      obtain ⟨c, n, p, q, ⟨h1, h2, h3, h4⟩, h⟩ := herr
      subst h1 h2 h3 h4
      rw [he] at h
      exact h rfl
  · rw [hT] at herr ⊢
    rcases handleProxyRespond_cases lib _ _
        (ProxyPOST_outcome lib s.alchemyClient (routeVar r (ascii "chain"))
          (routeVar r (ascii "network")) (ExtractAlchemyPath r) body)
      with ⟨err, _, hR⟩ | ⟨m, url, b, _, hR⟩ | ⟨m, url, b, req, e, _, _, hR⟩ |
        ⟨m, url, b, req, resp, R, _, he, hR⟩
    · rw [hR]
      exact ⟨[.readAll, .proxyPOST _ _ _ _], rfl, rfl⟩
    · rw [hR]
      exact ⟨[.readAll, .proxyPOST _ _ _ _, .newRequest m url b], rfl, rfl⟩
    · rw [hR]
      exact ⟨[.readAll, .proxyPOST _ _ _ _, .newRequest m url b, .executeRequest req],
        rfl, rfl⟩
    · exfalso
      rw [hR] at herr
      simp at herr
      obtain ⟨c, n, p, q, ⟨h1, h2, h3, h4⟩, h⟩ := herr
      subst h1 h2 h3 h4
      rw [he] at h
      exact h rfl

/-- C7: for every request for which the client call that `handleProxy` makes
(`ProxyGET` for a GET, `ProxyPOST` for a POST) returns an error, the calls on
the response writer are exactly: set the content type "application/json",
write status 502, write the JSON object with the single field
"error": "Failed to proxy request" (as the encoder writes it, followed by a
newline). Nothing of an upstream response is written. -/
theorem handleProxy_client_error (lib : Stdlib) (s : Server) (r : Request)
    (herr :
      (∃ chain network path rawQuery,
        .proxyGET chain network path rawQuery ∈ handleProxy lib s r ∧
        (ProxyGET lib s.alchemyClient chain network path rawQuery).1.err ≠ none) ∨
      (∃ chain network path body,
        .proxyPOST chain network path body ∈ handleProxy lib s r ∧
        (ProxyPOST lib s.alchemyClient chain network path body).1.err ≠ none)) :
    writerCalls (handleProxy lib s r)
      = [.headerSet (ascii "Content-Type") (ascii "application/json"),
         .writeHeader 502,
         .write (ascii "\x7b\"error\":\"Failed to proxy request\"\x7d\n")] := by
  obtain ⟨pre, hpre, hT⟩ := handleProxy_of_client_error lib s r herr
  have hb := encodeErrorJSON_safe lib (ascii "Failed to proxy request") (by decide)
  rw [hT, writerCalls_append, hpre]
  unfold writeError
  rw [hb]
  decide

/-- C7, witness: a GET for the chain "eth" when the only route key is
"polygon-mainnet" (unknown route), the client returning an error. -/
theorem handleProxy_client_error_witness :
    writerCalls (handleProxy Stdlib.plain
        ⟨sampleClient (ascii "polygon-mainnet") (upstreamAnswers 200 [] [])⟩ sampleGET)
      = [.headerSet (ascii "Content-Type") (ascii "application/json"),
         .writeHeader 502,
         .write (ascii "\x7b\"error\":\"Failed to proxy request\"\x7d\n")] :=
  handleProxy_client_error Stdlib.plain
    ⟨sampleClient (ascii "polygon-mainnet") (upstreamAnswers 200 [] [])⟩ sampleGET
    (Or.inl ⟨ascii "eth", ascii "mainnet", ascii "/getNFTsForOwner", ascii "owner=0x123",
      by decide, by decide⟩)

/-- C8, amended: for every request, of any HTTP method, whose path does not
contain the marker "/nft/v3/", `handleProxy` logs the failure and writes status
400 with the JSON object "error": "Invalid request path" (as the encoder
writes it, followed by a newline), and makes no call on the upstream side;
conversely, for a request whose path contains the marker `handleProxy` never
takes that branch (the failure is not logged), and the calls on the response
writer are those of the "Invalid request path" response only when an upstream
response with status 400 and exactly that body is relayed. -/
theorem handleProxy_invalid_path (lib : Stdlib) (s : Server) (r : Request) :
    (¬ Occurs pathPrefix r.URL.Path →
      handleProxy lib s r
        = [.log (ascii "Failed to extract Alchemy path from request"),
           .headerSet (ascii "Content-Type") (ascii "application/json"),
           .writeHeader 400,
           .write (ascii "\x7b\"error\":\"Invalid request path\"\x7d\n")] ∧
      upstreamCalls (handleProxy lib s r) = []) ∧
    (Occurs pathPrefix r.URL.Path →
      .log (ascii "Failed to extract Alchemy path from request") ∉ handleProxy lib s r ∧
      (writerCalls (handleProxy lib s r)
          = [.headerSet (ascii "Content-Type") (ascii "application/json"),
             .writeHeader 400,
             .write (ascii "\x7b\"error\":\"Invalid request path\"\x7d\n")] →
        ∃ req resp,
          .executeRequest req ∈ handleProxy lib s r ∧
          s.alchemyClient.httpClient req
            = .ok (resp, ascii "\x7b\"error\":\"Invalid request path\"\x7d\n") ∧
          resp.StatusCode = 400)) := by
  have hbp := encodeErrorJSON_safe lib (ascii "Invalid request path") (by decide)
  have hbb := encodeErrorJSON_safe lib (ascii "Invalid request body") (by decide)
  have hl1 : ascii "Failed to extract Alchemy path from request"
      ≠ ascii "Failed to read request body" := by decide
  have hl2 : ascii "Failed to extract Alchemy path from request"
      ≠ ascii "Alchemy API error" := by decide
  have hne : ascii "\x7b\"error\":\"" ++ (ascii "Invalid request body" ++ ascii "\"\x7d\n")
      ≠ ascii "\x7b\"error\":\"Invalid request path\"\x7d\n" := by decide
  constructor
  · intro hocc
    rcases handleProxy_cases lib s r with ⟨_, hT⟩ | ⟨h, _⟩ | ⟨h, _⟩ | ⟨h, _⟩ | ⟨h, _⟩
    · rw [hT]
      unfold writeError
      rw [hbp]
      exact ⟨by decide, by decide⟩
    all_goals exact absurd h hocc
  · intro hocc
    rcases handleProxy_cases lib s r with ⟨h, _⟩ | ⟨_, _, _, hT⟩ | ⟨_, _, _, hT⟩ |
      ⟨_, _, hT⟩ | ⟨_, _, body, _, hT⟩
    · exact absurd hocc h
    · rw [hT]
      unfold writeError
      refine ⟨by simp, fun hw => ?_⟩
      exact absurd hw (by simp [writerCalls])
    · rw [hT]
      unfold writeError
      rw [hbb]
      refine ⟨by simp [hl1], fun hw => ?_⟩
      exact absurd hw (by simp [writerCalls, hne])
    · rw [hT]
      rcases handleProxyRespond_cases lib _ _
          (ProxyGET_outcome lib s.alchemyClient (routeVar r (ascii "chain"))
            (routeVar r (ascii "network")) (ExtractAlchemyPath r) r.URL.RawQuery)
        with ⟨err, _, hR⟩ | ⟨m, url, b, _, hR⟩ | ⟨m, url, b, req, e, _, _, hR⟩ |
          ⟨m, url, b, req, resp, R, hx, _, hR⟩
      · rw [hR]
        unfold writeError
        refine ⟨by simp [hl2], fun hw => ?_⟩
        exact absurd hw (by simp [writerCalls])
      · rw [hR]
        unfold writeError
        refine ⟨by simp [hl2], fun hw => ?_⟩
        exact absurd hw (by simp [writerCalls])
      · rw [hR]
        unfold writeError
        refine ⟨by simp [hl2], fun hw => ?_⟩
        exact absurd hw (by simp [writerCalls])
      · rw [hR]
        refine ⟨by simp, fun hw => ?_⟩
        simp [writerCalls] at hw
        refine ⟨req, resp, by simp, ?_, hw.1⟩
        rw [hx, hw.2]
    · rw [hT]
      rcases handleProxyRespond_cases lib _ _
          (ProxyPOST_outcome lib s.alchemyClient (routeVar r (ascii "chain"))
            (routeVar r (ascii "network")) (ExtractAlchemyPath r) body)
        with ⟨err, _, hR⟩ | ⟨m, url, b, _, hR⟩ | ⟨m, url, b, req, e, _, _, hR⟩ |
          ⟨m, url, b, req, resp, R, hx, _, hR⟩
      · rw [hR]
        unfold writeError
        refine ⟨by simp [hl2], fun hw => ?_⟩
        exact absurd hw (by simp [writerCalls])
      · rw [hR]
        unfold writeError
        refine ⟨by simp [hl2], fun hw => ?_⟩
        exact absurd hw (by simp [writerCalls])
      · rw [hR]
        unfold writeError
        refine ⟨by simp [hl2], fun hw => ?_⟩
        exact absurd hw (by simp [writerCalls])
      · rw [hR]
        refine ⟨by simp, fun hw => ?_⟩
        simp [writerCalls] at hw
        refine ⟨req, resp, by simp, ?_, hw.1⟩
        rw [hx, hw.2]

/-- C8, witness: a GET on "/eth/mainnet/invalid/path", without the marker, and
a PUT on a path with the marker. -/
theorem handleProxy_invalid_path_witness :
    (handleProxy Stdlib.plain (sampleServer upstreamDown)
        (sampleRequest (ascii "GET") (ascii "/eth/mainnet/invalid/path") [] [])
      = [.log (ascii "Failed to extract Alchemy path from request"),
         .headerSet (ascii "Content-Type") (ascii "application/json"),
         .writeHeader 400,
         .write (ascii "\x7b\"error\":\"Invalid request path\"\x7d\n")] ∧
     upstreamCalls (handleProxy Stdlib.plain (sampleServer upstreamDown)
        (sampleRequest (ascii "GET") (ascii "/eth/mainnet/invalid/path") [] [])) = []) ∧
    Effect.log (ascii "Failed to extract Alchemy path from request") ∉
      handleProxy Stdlib.plain (sampleServer upstreamDown)
        (sampleRequest (ascii "PUT") (ascii "/eth/mainnet/nft/v3/getNFTsForOwner") [] []) :=
  ⟨(handleProxy_invalid_path Stdlib.plain (sampleServer upstreamDown)
      (sampleRequest (ascii "GET") (ascii "/eth/mainnet/invalid/path") [] [])).1
      (fun h => Index_eq_neg_one (ascii "/eth/mainnet/invalid/path") pathPrefix
        (by decide) h),
   ((handleProxy_invalid_path Stdlib.plain (sampleServer upstreamDown)
      (sampleRequest (ascii "PUT") (ascii "/eth/mainnet/nft/v3/getNFTsForOwner") [] [])).2
      ⟨ascii "/eth/mainnet", ascii "getNFTsForOwner", by decide⟩).1⟩

/-- C8, counterexample: the path of `sampleGET` contains the marker, the
upstream answers with status 400 and the bytes of the "Invalid request path"
error, and `handleProxy` relays them: the response is the "Invalid request
path" response, byte for byte. -/
theorem handleProxy_invalid_path_counterexample :
    sampleGET.URL.Path
      = ascii "/eth/mainnet" ++ pathPrefix ++ ascii "getNFTsForOwner" ∧
    writerCalls (handleProxy Stdlib.plain
        (sampleServer (upstreamAnswers 400 (ascii "application/json")
          (ascii "\x7b\"error\":\"Invalid request path\"\x7d\n"))) sampleGET)
      = writerCalls (handleProxy Stdlib.plain
        (sampleServer (upstreamAnswers 400 (ascii "application/json")
          (ascii "\x7b\"error\":\"Invalid request path\"\x7d\n")))
        (sampleRequest (ascii "GET") (ascii "/eth/mainnet/invalid/path") [] [])) ∧
    writerCalls (handleProxy Stdlib.plain
        (sampleServer (upstreamAnswers 400 (ascii "application/json")
          (ascii "\x7b\"error\":\"Invalid request path\"\x7d\n"))) sampleGET)
      = [.headerSet (ascii "Content-Type") (ascii "application/json"),
         .writeHeader 400,
         .write (ascii "\x7b\"error\":\"Invalid request path\"\x7d\n")] := by
  refine ⟨by decide, by decide, by decide⟩

/-! ### applyDefaults -/

theorem applyDefaults_retry (d : RetryOptions) (c : Config) :
    (applyDefaults d c).Alchemy.Retry
      = if c.Alchemy.Retry.MaxRetries = 0 then
          ⟨d.MaxRetries, d.BaseBackoff, d.ConnectionTimeout, d.RequestTimeout, ascii "Alchemy"⟩
        else c.Alchemy.Retry := by
  unfold applyDefaults
  simp only
  split <;> split <;> split <;> split <;> rfl

theorem applyDefaults_server (d : RetryOptions) (c : Config) :
    (applyDefaults d c).Server
      = ⟨if c.Server.Port = [] then ascii "8080" else c.Server.Port,
         if c.Server.ReadTimeout = 0 then 30 * Second else c.Server.ReadTimeout,
         if c.Server.WriteTimeout = 0 then 30 * Second else c.Server.WriteTimeout⟩ := by
  unfold applyDefaults
  simp only
  split <;> split <;> split <;> split <;> simp_all

theorem applyDefaults_rest (d : RetryOptions) (c : Config) :
    (applyDefaults d c).Alchemy.APIKey = c.Alchemy.APIKey ∧
    (applyDefaults d c).Alchemy.BaseURLs = c.Alchemy.BaseURLs := by
  unfold applyDefaults
  simp only
  split <;> split <;> split <;> split <;> exact ⟨rfl, rfl⟩

/-- What `applyDefaults` does to each field, as the code stands: each of
Server.Port, ReadTimeout and WriteTimeout that held a non-zero (non-empty)
value keeps it; the retry options are kept as a whole when
Alchemy.Retry.MaxRetries was non-zero, and are assigned as a whole, from the
library defaults and the tag "Alchemy", when MaxRetries was zero; the API key
and the base-URL table are unchanged. -/
theorem applyDefaults_frame (d : RetryOptions) (c : Config) :
    (c.Alchemy.Retry.MaxRetries ≠ 0 →
      (applyDefaults d c).Alchemy.Retry = c.Alchemy.Retry) ∧
    (c.Alchemy.Retry.MaxRetries = 0 →
      (applyDefaults d c).Alchemy.Retry
        = ⟨d.MaxRetries, d.BaseBackoff, d.ConnectionTimeout, d.RequestTimeout,
            ascii "Alchemy"⟩) ∧
    (c.Server.Port ≠ [] → (applyDefaults d c).Server.Port = c.Server.Port) ∧
    (c.Server.ReadTimeout ≠ 0 →
      (applyDefaults d c).Server.ReadTimeout = c.Server.ReadTimeout) ∧
    (c.Server.WriteTimeout ≠ 0 →
      (applyDefaults d c).Server.WriteTimeout = c.Server.WriteTimeout) ∧
    (applyDefaults d c).Alchemy.APIKey = c.Alchemy.APIKey ∧
    (applyDefaults d c).Alchemy.BaseURLs = c.Alchemy.BaseURLs := by
  have hr := applyDefaults_retry d c
  have hs := applyDefaults_server d c
  refine ⟨fun h => ?_, fun h => ?_, fun h => ?_, fun h => ?_, fun h => ?_,
    applyDefaults_rest d c⟩
  · rw [hr, if_neg h]
  · rw [hr, if_pos h]
  · rw [hs]
    exact if_neg h
  · rw [hs]
    exact if_neg h
  · rw [hs]
    exact if_neg h

/-- An instance of `applyDefaults_frame`: a configuration with the retry count
5, the port "9000" and a write timeout keeps its retry options, its port and
its write timeout. -/
theorem applyDefaults_frame_witness :
    (applyDefaults ⟨3, Second, 10 * Second, 30 * Second, []⟩ sampleConfigWithRetries).Alchemy.Retry
      = ⟨5, 0, 0, 0, []⟩ ∧
    (applyDefaults ⟨3, Second, 10 * Second, 30 * Second, []⟩ sampleConfigWithRetries).Server.Port
      = ascii "9000" ∧
    (applyDefaults ⟨3, Second, 10 * Second, 30 * Second, []⟩
        sampleConfigWithRetries).Server.WriteTimeout
      = 5 * Second :=
  ⟨(applyDefaults_frame ⟨3, Second, 10 * Second, 30 * Second, []⟩ sampleConfigWithRetries).1
      (by decide),
   (applyDefaults_frame ⟨3, Second, 10 * Second, 30 * Second, []⟩
      sampleConfigWithRetries).2.2.1 (by decide),
   (applyDefaults_frame ⟨3, Second, 10 * Second, 30 * Second, []⟩
      sampleConfigWithRetries).2.2.2.2.1 (by decide)⟩

/-- C14, at the failing input: `sampleConfig` has the retry count 0, a
configured BaseBackoff of two seconds and the configured LogPrefix "Custom",
both non-zero (non-empty) before the call. After `applyDefaults` its LogPrefix
is "Alchemy" whatever the library defaults are, and its BaseBackoff is the
library default, which keeps the two seconds only if the default happens to be
two seconds. Neither configured value holds the same value after the call,
although the docstring of `applyDefaults` says that defaults are set for
missing configuration and the server fields are each defaulted only when
empty. -/
theorem applyDefaults_overwrites_configured :
    sampleConfig.Alchemy.Retry.MaxRetries = 0 ∧
    sampleConfig.Alchemy.Retry.BaseBackoff = 2 * Second ∧
    sampleConfig.Alchemy.Retry.BaseBackoff ≠ 0 ∧
    sampleConfig.Alchemy.Retry.LogPrefix = ascii "Custom" ∧
    sampleConfig.Alchemy.Retry.LogPrefix ≠ [] ∧
    ¬ (∃ d : RetryOptions,
        (applyDefaults d sampleConfig).Alchemy.Retry.LogPrefix
          = sampleConfig.Alchemy.Retry.LogPrefix) ∧
    ¬ (∃ d : RetryOptions, d.BaseBackoff ≠ 2 * Second ∧
        (applyDefaults d sampleConfig).Alchemy.Retry.BaseBackoff
          = sampleConfig.Alchemy.Retry.BaseBackoff) ∧
    (applyDefaults ⟨3, Second, 10 * Second, 30 * Second, []⟩ sampleConfig).Alchemy.Retry
      = ⟨3, Second, 10 * Second, 30 * Second, ascii "Alchemy"⟩ := by
  refine ⟨rfl, rfl, by decide, rfl, by decide, ?_, ?_, ?_⟩
  · rintro ⟨d, h⟩
    rw [applyDefaults_retry, if_pos (by decide)] at h
    have h' : ascii "Alchemy" = ascii "Custom" := h
    exact absurd h' (by decide)
  · rintro ⟨d, hd, h⟩
    rw [applyDefaults_retry, if_pos (by decide)] at h
    exact hd h
  · rw [applyDefaults_retry, if_pos (by decide)]

/-! ### The body of a POST -/

theorem ProxyPOST_effects (lib : Stdlib) (c : Client) (chain network P body : GoString) :
    (ProxyPOST lib c chain network P body).2 = [] ∨
    ∃ url, (ProxyPOST lib c chain network P body).2
      = .newRequest (ascii "POST") url (if body.length > 0 then some body else none) ::
          (if lib.parseURL url then
            [.executeRequest
              ⟨ascii "POST", url, if body.length > 0 then some body else none,
                [(ascii "Accept", ascii "application/json"),
                 (ascii "Content-Type", ascii "application/json")]⟩]
          else []) := by
  cases h : c.baseURLs (ToLower lib chain ++ ascii "-" ++ ToLower lib network) with
  | none =>
    left
    unfold ProxyPOST
    rw [getBaseURL_of_lookup, h]
  | some B => exact Or.inr ⟨_, ProxyPOST_of_route lib c chain network B P body h⟩

theorem mem_handleProxyRespond_newRequest (lib : Stdlib) (call : ProxyResult × List Effect)
    (m url : GoString) (b : Option GoString) :
    .newRequest m url b ∈ handleProxyRespond lib call ↔ .newRequest m url b ∈ call.2 := by
  unfold handleProxyRespond
  cases call.1.err <;> simp [writeError]

theorem mem_handleProxyRespond_executeRequest (lib : Stdlib)
    (call : ProxyResult × List Effect) (req : OutRequest) :
    .executeRequest req ∈ handleProxyRespond lib call ↔ .executeRequest req ∈ call.2 := by
  unfold handleProxyRespond
  cases call.1.err <;> simp [writeError]

theorem requestBody_bytes (B : GoString) :
    (if B.length > 0 then some B else none : Option GoString)
        = (if B = [] then none else some B) ∧
    (if B.length > 0 then some B else none : Option GoString).getD [] = B := by
  cases B with
  | nil => exact ⟨rfl, rfl⟩
  | cons a t => simp

/-- C11: for every POST request whose path contains the marker and whose body
is read successfully as bytes `B`, the handler passes exactly `B` to
`ProxyPOST`, and every upstream request that is built and every one that is
executed carries exactly the bytes `B` as its body: the buffer of `B` when `B`
is non-empty, no body when `B` is empty. On a configured route such a request
is built. -/
theorem handleProxy_post_body (lib : Stdlib) (s : Server) (r : Request) (B : GoString)
    (hocc : Occurs pathPrefix r.URL.Path) (hm : r.Method = ascii "POST")
    (hb : r.Body = .ok B) :
    .proxyPOST (routeVar r (ascii "chain")) (routeVar r (ascii "network"))
        (ExtractAlchemyPath r) B ∈ handleProxy lib s r ∧
    (∀ m url b, .newRequest m url b ∈ handleProxy lib s r →
      m = ascii "POST" ∧ b = (if B = [] then none else some B) ∧ b.getD [] = B) ∧
    (∀ req, .executeRequest req ∈ handleProxy lib s r →
      req.Method = ascii "POST" ∧ req.Body = (if B = [] then none else some B) ∧
      req.Body.getD [] = B) ∧
    (∀ baseURL,
      s.alchemyClient.baseURLs
          (ToLower lib (routeVar r (ascii "chain")) ++ ascii "-" ++
            ToLower lib (routeVar r (ascii "network"))) = some baseURL →
      .newRequest (ascii "POST")
          (baseURL ++ ascii "/nft/v3/" ++ s.alchemyClient.apiKey ++ ExtractAlchemyPath r)
          (if B = [] then none else some B) ∈ handleProxy lib s r) := by
  have hT : handleProxy lib s r
      = .readAll ::
          .proxyPOST (routeVar r (ascii "chain")) (routeVar r (ascii "network"))
            (ExtractAlchemyPath r) B ::
          handleProxyRespond lib
            (ProxyPOST lib s.alchemyClient (routeVar r (ascii "chain"))
              (routeVar r (ascii "network")) (ExtractAlchemyPath r) B) := by
    have hpg : ascii "POST" ≠ ascii "GET" := by decide
    rcases handleProxy_cases lib s r with ⟨h, _⟩ | ⟨_, _, h, _⟩ | ⟨_, _, ⟨e, h⟩, _⟩ |
      ⟨_, h, _⟩ | ⟨_, _, body, h, hT⟩
    · exact absurd hocc h
    · exact absurd hm h
    · rw [hb] at h
      exact absurd h (by simp)
    · rw [hm] at h
      exact absurd h hpg
    · rw [hb] at h
      simp only [Except.ok.injEq] at h
      subst h
      exact hT
  obtain ⟨hB1, hB2⟩ := requestBody_bytes B
  rw [hT]
  refine ⟨by simp, ?_, ?_, ?_⟩
  · intro m url b hmem
    simp only [List.mem_cons, reduceCtorEq, false_or, mem_handleProxyRespond_newRequest] at hmem
    rcases ProxyPOST_effects lib s.alchemyClient (routeVar r (ascii "chain"))
        (routeVar r (ascii "network")) (ExtractAlchemyPath r) B with he | ⟨u, he⟩
    · rw [he] at hmem
      simp at hmem
    · rw [he] at hmem
      simp only [List.mem_cons, Effect.newRequest.injEq] at hmem
      rcases hmem with ⟨h1, _, h3⟩ | hmem
      · rw [h3]
        exact ⟨h1, hB1, hB2⟩
      · split at hmem <;> simp at hmem
  · intro req hmem
    simp only [List.mem_cons, reduceCtorEq, false_or,
      mem_handleProxyRespond_executeRequest] at hmem
    rcases ProxyPOST_effects lib s.alchemyClient (routeVar r (ascii "chain"))
        (routeVar r (ascii "network")) (ExtractAlchemyPath r) B with he | ⟨u, he⟩
    · rw [he] at hmem
      simp at hmem
    · rw [he] at hmem
      simp only [List.mem_cons, reduceCtorEq, false_or] at hmem
      split at hmem
      · simp only [List.mem_singleton, Effect.executeRequest.injEq] at hmem
        rw [hmem]
        exact ⟨rfl, hB1, hB2⟩
      · simp at hmem
  · intro baseURL hroute
    have he := ProxyPOST_of_route lib s.alchemyClient (routeVar r (ascii "chain"))
      (routeVar r (ascii "network")) baseURL (ExtractAlchemyPath r) B hroute
    simp only [List.mem_cons, reduceCtorEq, false_or, mem_handleProxyRespond_newRequest]
    rw [he, hB1]
    exact List.mem_cons_self _ _

/-- C11, witness: a POST with the body "tokens" on the route "eth-mainnet":
the request built for the upstream carries the bytes "tokens". -/
theorem handleProxy_post_body_witness :
    Effect.newRequest (ascii "POST")
        (ascii "https://alchemy.example/nft/v3/test-api-key/getNFTMetadataBatch")
        (some (ascii "tokens")) ∈
      handleProxy Stdlib.plain (sampleServer (upstreamAnswers 200 [] []))
        (sampleRequest (ascii "POST") (ascii "/eth/mainnet/nft/v3/getNFTMetadataBatch") []
          (ascii "tokens")) :=
  (handleProxy_post_body Stdlib.plain (sampleServer (upstreamAnswers 200 [] []))
    (sampleRequest (ascii "POST") (ascii "/eth/mainnet/nft/v3/getNFTMetadataBatch") []
      (ascii "tokens"))
    (ascii "tokens")
    ⟨ascii "/eth/mainnet", ascii "getNFTMetadataBatch", by decide⟩ (by decide) rfl).2.2.2
    (ascii "https://alchemy.example") (by decide)

/-! ### One response per request -/

theorem handleProxyRespond_one_response (lib : Stdlib) (c : Client)
    (call : ProxyResult × List Effect) (h : ClientOutcome c call) :
    ∃ pre status body, writerCalls pre = [] ∧
      handleProxyRespond lib call
        = pre ++ [.headerSet (ascii "Content-Type") (ascii "application/json"),
                  .writeHeader status, .write body] := by
  rcases handleProxyRespond_cases lib c call h with ⟨err, _, hT⟩ | ⟨m, url, b, _, hT⟩ |
    ⟨m, url, b, req, e, _, _, hT⟩ | ⟨m, url, b, req, resp, R, _, _, hT⟩
  · exact ⟨[.log (ascii "Alchemy API error")], 502,
      encodeErrorJSON lib (ascii "Failed to proxy request"), rfl, hT⟩
  · exact ⟨[.newRequest m url b, .log (ascii "Alchemy API error")], 502,
      encodeErrorJSON lib (ascii "Failed to proxy request"), rfl, hT⟩
  · exact ⟨[.newRequest m url b, .executeRequest req, .log (ascii "Alchemy API error")], 502,
      encodeErrorJSON lib (ascii "Failed to proxy request"), rfl, hT⟩
  · exact ⟨[.newRequest m url b, .executeRequest req], resp.StatusCode, R, rfl, hT⟩

/-- C12: for every inbound request (every method, path, body-read outcome and
upstream outcome), the trace of `handleProxy` ends with one response: the
content type is set, the status code is written once and one body write
follows it; nothing is written on the response writer before, and nothing
happens after the body write. -/
theorem handleProxy_one_response (lib : Stdlib) (s : Server) (r : Request) :
    ∃ pre status body, writerCalls pre = [] ∧
      handleProxy lib s r
        = pre ++ [.headerSet (ascii "Content-Type") (ascii "application/json"),
                  .writeHeader status, .write body] ∧
      writerCalls (handleProxy lib s r)
        = [.headerSet (ascii "Content-Type") (ascii "application/json"),
           .writeHeader status, .write body] := by
  have key : ∃ pre status body, writerCalls pre = [] ∧
      handleProxy lib s r
        = pre ++ [.headerSet (ascii "Content-Type") (ascii "application/json"),
                  .writeHeader status, .write body] := by
    rcases handleProxy_cases lib s r with ⟨_, hT⟩ | ⟨_, _, _, hT⟩ | ⟨_, _, _, hT⟩ |
      ⟨_, _, hT⟩ | ⟨_, _, body, _, hT⟩
    · exact ⟨[.log (ascii "Failed to extract Alchemy path from request")], 400,
        encodeErrorJSON lib (ascii "Invalid request path"), rfl, hT⟩
    · exact ⟨[], 405, encodeErrorJSON lib (ascii "Method not allowed"), rfl, hT⟩
    · exact ⟨[.readAll, .log (ascii "Failed to read request body")], 400,
        encodeErrorJSON lib (ascii "Invalid request body"), rfl, hT⟩
    · obtain ⟨pre, status, b, hpre, hR⟩ := handleProxyRespond_one_response lib _ _
        (ProxyGET_outcome lib s.alchemyClient (routeVar r (ascii "chain"))
          (routeVar r (ascii "network")) (ExtractAlchemyPath r) r.URL.RawQuery)
      refine ⟨.proxyGET (routeVar r (ascii "chain")) (routeVar r (ascii "network"))
        (ExtractAlchemyPath r) r.URL.RawQuery :: pre, status, b, ?_, ?_⟩
      · exact hpre
      · rw [hT, hR]
        rfl
    · obtain ⟨pre, status, b, hpre, hR⟩ := handleProxyRespond_one_response lib _ _
        (ProxyPOST_outcome lib s.alchemyClient (routeVar r (ascii "chain"))
          (routeVar r (ascii "network")) (ExtractAlchemyPath r) body)
      refine ⟨.readAll :: .proxyPOST (routeVar r (ascii "chain"))
        (routeVar r (ascii "network")) (ExtractAlchemyPath r) body :: pre, status, b, ?_, ?_⟩
      · exact hpre
      · rw [hT, hR]
        rfl
  obtain ⟨pre, status, body, hpre, hT⟩ := key
  refine ⟨pre, status, body, hpre, hT, ?_⟩
  rw [hT, writerCalls_append, hpre]
  rfl

/-! ### The retry bound -/

theorem retryLoop_exhausted (retryOpts : RetryOptions) (transient : Int → Bool)
    (transport : Nat → OutRequest → AttemptResult) (req : OutRequest) (n made : Nat)
    (h : ∀ i, i < n → retryable transient (transport (made + i) req) = true) :
    (retryLoop retryOpts transient transport req n made).1
        = .error (ascii "max retries exceeded") ∧
    callsMade (retryLoop retryOpts transient transport req n made).2 = n := by
  induction n generalizing made with
  | zero => exact ⟨rfl, rfl⟩
  | succ n ih =>
    have h0 : retryable transient (transport made req) = true := by
      simpa using h 0 (Nat.succ_pos n)
    have ih' := ih (made + 1) (fun i hi => by
      have := h (i + 1) (Nat.succ_lt_succ hi)
      rwa [Nat.add_assoc, Nat.add_comm 1 i])
    unfold retryLoop
    simp only [h0, if_true]
    exact ⟨ih'.1, by simp [callsMade, ih'.2]⟩

theorem retryLoop_recovers (retryOpts : RetryOptions) (transient : Int → Bool)
    (transport : Nat → OutRequest → AttemptResult) (req : OutRequest) (k made extra : Nat)
    (h : ∀ i, i < k → retryable transient (transport (made + i) req) = true)
    (hk : retryable transient (transport (made + k) req) = false) :
    (retryLoop retryOpts transient transport req (k + 1 + extra) made).1
        = definitive (transport (made + k) req) ∧
    callsMade (retryLoop retryOpts transient transport req (k + 1 + extra) made).2
        = k + 1 := by
  induction k generalizing made with
  | zero =>
    have hk' : retryable transient (transport made req) = false := by simpa using hk
    have hn : 0 + 1 + extra = extra + 1 := by omega
    rw [hn]
    unfold retryLoop
    simp only [hk', Bool.false_eq_true, if_false]
    exact ⟨by simp, rfl⟩
  | succ k ih =>
    have h0 : retryable transient (transport made req) = true := by
      simpa using h 0 (Nat.succ_pos k)
    have ih' := ih (made + 1)
      (fun i hi => by
        have := h (i + 1) (Nat.succ_lt_succ hi)
        rwa [Nat.add_assoc, Nat.add_comm 1 i])
      (by rwa [Nat.add_assoc, Nat.add_comm 1 k])
    have hn : k + 1 + 1 + extra = (k + 1 + extra) + 1 := by omega
    rw [hn]
    unfold retryLoop
    simp only [h0, if_true]
    refine ⟨?_, by simp [callsMade, ih'.2]⟩
    rw [ih'.1, Nat.add_assoc, Nat.add_comm 1 k]

theorem upstreamCallCount_append (retryOpts : RetryOptions) (transient : Int → Bool)
    (transport : Nat → OutRequest → AttemptResult) (es es' : List Effect) :
    upstreamCallCount retryOpts transient transport (es ++ es')
      = upstreamCallCount retryOpts transient transport es
        + upstreamCallCount retryOpts transient transport es' := by
  induction es with
  | nil => simp [upstreamCallCount]
  | cons e es ih =>
    cases e with
    | executeRequest q =>
      show callsMade _ + upstreamCallCount retryOpts transient transport (es ++ es')
        = callsMade _ + upstreamCallCount retryOpts transient transport es
          + upstreamCallCount retryOpts transient transport es'
      rw [ih, Nat.add_assoc]
    | log m => exact ih
    | readAll => exact ih
    | proxyGET a b c d => exact ih
    | proxyPOST a b c d => exact ih
    | newRequest a b c => exact ih
    | headerSet k v => exact ih
    | writeHeader st => exact ih
    | write b => exact ih

theorem upstreamCallCount_of_no_execute (retryOpts : RetryOptions) (transient : Int → Bool)
    (transport : Nat → OutRequest → AttemptResult) (es : List Effect)
    (h : ∀ e ∈ es, ∀ q, e ≠ .executeRequest q) :
    upstreamCallCount retryOpts transient transport es = 0 := by
  induction es with
  | nil => rfl
  | cons e es ih =>
    have ih' := ih (fun e he => h e (List.mem_cons_of_mem _ he))
    cases e with
    | executeRequest q => exact absurd rfl (h _ (List.mem_cons_self _ _) q)
    | log m => exact ih'
    | readAll => exact ih'
    | proxyGET a b c d => exact ih'
    | proxyPOST a b c d => exact ih'
    | newRequest a b c => exact ih'
    | headerSet k v => exact ih'
    | writeHeader st => exact ih'
    | write b => exact ih'

/-- The trace of the statements after the `switch` around a request that the
client call executed. -/
theorem handleProxyRespond_execute_trace (lib : Stdlib) (c : Client)
    (call : ProxyResult × List Effect) (h : ClientOutcome c call) (req : OutRequest)
    (hreq : .executeRequest req ∈ handleProxyRespond lib call) :
    ∃ pre post, handleProxyRespond lib call = pre ++ .executeRequest req :: post ∧
      writerCalls pre = [] ∧
      (∀ e ∈ pre, ∀ q, e ≠ .executeRequest q) ∧
      (∀ e ∈ post, ∀ q, e ≠ .executeRequest q) ∧
      ((∃ resp R, c.httpClient req = .ok (resp, R) ∧
          writerCalls post
            = [.headerSet (ascii "Content-Type") (ascii "application/json"),
               .writeHeader resp.StatusCode, .write R]) ∨
       (∃ e, c.httpClient req = .error e ∧
          writerCalls post = writeError lib (ascii "Failed to proxy request") 502)) := by
  rcases handleProxyRespond_cases lib c call h with ⟨err, _, hT⟩ | ⟨m, url, b, _, hT⟩ |
    ⟨m, url, b, req', e, hx, _, hT⟩ | ⟨m, url, b, req', resp, R, hx, _, hT⟩
  · rw [hT] at hreq
    simp [writeError] at hreq
  · rw [hT] at hreq
    simp [writeError] at hreq
  · rw [hT] at hreq
    simp [writeError] at hreq
    subst hreq
    refine ⟨[.newRequest m url b], _, hT, rfl, by simp, by simp [writeError],
      Or.inr ⟨e, hx, rfl⟩⟩
  · rw [hT] at hreq
    simp at hreq
    subst hreq
    refine ⟨[.newRequest m url b], _, hT, rfl, by simp, by simp,
      Or.inl ⟨resp, R, hx, rfl⟩⟩

/-- The trace of `handleProxy` around a request that it executed upstream. -/
theorem handleProxy_execute_trace (lib : Stdlib) (s : Server) (r : Request) (req : OutRequest)
    (hreq : .executeRequest req ∈ handleProxy lib s r) :
    ∃ pre post, handleProxy lib s r = pre ++ .executeRequest req :: post ∧
      writerCalls pre = [] ∧
      (∀ e ∈ pre, ∀ q, e ≠ .executeRequest q) ∧
      (∀ e ∈ post, ∀ q, e ≠ .executeRequest q) ∧
      ((∃ resp R, s.alchemyClient.httpClient req = .ok (resp, R) ∧
          writerCalls post
            = [.headerSet (ascii "Content-Type") (ascii "application/json"),
               .writeHeader resp.StatusCode, .write R]) ∨
       (∃ e, s.alchemyClient.httpClient req = .error e ∧
          writerCalls post = writeError lib (ascii "Failed to proxy request") 502)) := by
  rcases handleProxy_cases lib s r with ⟨_, hT⟩ | ⟨_, _, _, hT⟩ | ⟨_, _, _, hT⟩ |
    ⟨_, _, hT⟩ | ⟨_, _, body, _, hT⟩
  · rw [hT] at hreq
    simp [writeError] at hreq
  · rw [hT] at hreq
    simp [writeError] at hreq
  · rw [hT] at hreq
    simp [writeError] at hreq
  · rw [hT] at hreq
    simp only [List.mem_cons, reduceCtorEq, false_or] at hreq
    obtain ⟨pre, post, hR, h1, h2, h3, h4⟩ := handleProxyRespond_execute_trace lib _ _
      (ProxyGET_outcome lib s.alchemyClient _ _ _ _) req hreq
    refine ⟨.proxyGET (routeVar r (ascii "chain")) (routeVar r (ascii "network"))
      (ExtractAlchemyPath r) r.URL.RawQuery :: pre, post, ?_, h1, ?_, h3, h4⟩
    · rw [hT, hR]
      rfl
    · intro e he q
      rcases List.mem_cons.1 he with he | he
      · rw [he]
        simp
      · exact h2 e he q
  · rw [hT] at hreq
    simp only [List.mem_cons, reduceCtorEq, false_or] at hreq
    obtain ⟨pre, post, hR, h1, h2, h3, h4⟩ := handleProxyRespond_execute_trace lib _ _
      (ProxyPOST_outcome lib s.alchemyClient _ _ _ _) req hreq
    refine ⟨.readAll :: .proxyPOST (routeVar r (ascii "chain"))
      (routeVar r (ascii "network")) (ExtractAlchemyPath r) body :: pre, post, ?_, h1, ?_,
      h3, h4⟩
    · rw [hT, hR]
      rfl
    · intro e he q
      rcases List.mem_cons.1 he with he | he
      · rw [he]
        simp
      · rcases List.mem_cons.1 he with he | he
        · rw [he]
          simp
        · exact h2 e he q

/-- For an inbound request that reaches the upstream with request `req`, the
calls that the upstream receives are those of the one retry loop of `req`, and
the calls on the response writer are those that follow the execution. -/
theorem handleProxy_retry_trace (lib : Stdlib) (apiKey : GoString)
    (baseURLs : GoString → Option GoString) (retryOpts : RetryOptions)
    (transient : Int → Bool) (transport : Nat → OutRequest → AttemptResult)
    (r : Request) (req : OutRequest)
    (hreq : .executeRequest req ∈
      handleProxy lib ⟨NewClient apiKey baseURLs retryOpts transient transport⟩ r) :
    upstreamCallCount retryOpts transient transport
        (handleProxy lib ⟨NewClient apiKey baseURLs retryOpts transient transport⟩ r)
      = callsMade
          (retryLoop retryOpts transient transport req retryOpts.MaxRetries.toNat 0).2 ∧
    (∀ resp R,
      (retryLoop retryOpts transient transport req retryOpts.MaxRetries.toNat 0).1
          = .ok (resp, R) →
      writerCalls
          (handleProxy lib ⟨NewClient apiKey baseURLs retryOpts transient transport⟩ r)
        = [.headerSet (ascii "Content-Type") (ascii "application/json"),
           .writeHeader resp.StatusCode, .write R]) ∧
    (∀ e,
      (retryLoop retryOpts transient transport req retryOpts.MaxRetries.toNat 0).1
          = .error e →
      writerCalls
          (handleProxy lib ⟨NewClient apiKey baseURLs retryOpts transient transport⟩ r)
        = writeError lib (ascii "Failed to proxy request") 502) := by
  obtain ⟨pre, post, hT, hw, hpre, hpost, hres⟩ := handleProxy_execute_trace lib _ r req hreq
  have hclient : (NewClient apiKey baseURLs retryOpts transient transport).httpClient req
      = (retryLoop retryOpts transient transport req retryOpts.MaxRetries.toNat 0).1 := rfl
  have hwT : writerCalls
      (handleProxy lib ⟨NewClient apiKey baseURLs retryOpts transient transport⟩ r)
      = writerCalls post := by
    rw [hT, writerCalls_append, hw]
    rfl
  refine ⟨?_, ?_, ?_⟩
  · rw [hT, upstreamCallCount_append,
      upstreamCallCount_of_no_execute retryOpts transient transport pre hpre]
    show 0 + (callsMade _ + upstreamCallCount retryOpts transient transport post) = _
    rw [upstreamCallCount_of_no_execute retryOpts transient transport post hpost]
    omega
  · intro resp R hok
    rw [hwT]
    rcases hres with ⟨resp', R', hx, hp⟩ | ⟨e, hx, _⟩
    · rw [hclient, hok] at hx
      simp only [Except.ok.injEq, Prod.mk.injEq] at hx
      rw [hp, ← hx.1, ← hx.2]
    · rw [hclient, hok] at hx
      exact absurd hx (by simp)
  · intro e herr
    rw [hwT]
    rcases hres with ⟨resp', R', hx, _⟩ | ⟨e', _, hp⟩
    · rw [hclient, herr] at hx
      exact absurd hx (by simp)
    · exact hp

/-- C13: with the retry loop modelled from the spec and N = the configured max
attempts, for an inbound request that reaches the upstream: an upstream that
returns a transient status code N-1 times and then 200 receives exactly N
calls and the 200 response is relayed to the caller; an upstream that always
returns a transient status code receives exactly N calls and the caller gets
the 502 response. -/
theorem retry_bound (lib : Stdlib) (apiKey : GoString)
    (baseURLs : GoString → Option GoString) (retryOpts : RetryOptions)
    (transient : Int → Bool) (transport : Nat → OutRequest → AttemptResult)
    (r : Request) (req : OutRequest)
    (hreq : .executeRequest req ∈
      handleProxy lib ⟨NewClient apiKey baseURLs retryOpts transient transport⟩ r) :
    (∀ (k : Nat) (hdr : Header) (body : GoString),
      retryOpts.MaxRetries = k + 1 →
      (∀ i, i < k →
        ∃ resp b, transport i req = .response resp b ∧ transient resp.StatusCode = true) →
      transport k req = .response ⟨200, hdr⟩ body →
      transient 200 = false →
      (upstreamCallCount retryOpts transient transport
          (handleProxy lib ⟨NewClient apiKey baseURLs retryOpts transient transport⟩ r) : Int)
        = retryOpts.MaxRetries ∧
      writerCalls
          (handleProxy lib ⟨NewClient apiKey baseURLs retryOpts transient transport⟩ r)
        = [.headerSet (ascii "Content-Type") (ascii "application/json"),
           .writeHeader 200, .write body]) ∧
    ((∀ i, ∃ resp b, transport i req = .response resp b ∧ transient resp.StatusCode = true) →
      upstreamCallCount retryOpts transient transport
          (handleProxy lib ⟨NewClient apiKey baseURLs retryOpts transient transport⟩ r)
        = retryOpts.MaxRetries.toNat ∧
      writerCalls
          (handleProxy lib ⟨NewClient apiKey baseURLs retryOpts transient transport⟩ r)
        = [.headerSet (ascii "Content-Type") (ascii "application/json"),
           .writeHeader 502,
           .write (ascii "\x7b\"error\":\"Failed to proxy request\"\x7d\n")]) := by
  obtain ⟨hcount, hok, herr⟩ :=
    handleProxy_retry_trace lib apiKey baseURLs retryOpts transient transport r req hreq
  constructor
  · intro k hdr body hN htrans h200 hnt
    have hn : retryOpts.MaxRetries.toNat = k + 1 + 0 := by
      rw [hN]
      rfl
    have hloop := retryLoop_recovers retryOpts transient transport req k 0 0
      (fun i hi => by
        obtain ⟨resp, b, ht, htr⟩ := htrans i hi
        rw [Nat.zero_add, ht]
        exact htr)
      (by
        rw [Nat.zero_add, h200]
        exact hnt)
    rw [← hn, Nat.zero_add, h200] at hloop
    refine ⟨?_, hok ⟨200, hdr⟩ body hloop.1⟩
    rw [hcount, hloop.2, hN]
    rfl
  · intro htrans
    have hloop := retryLoop_exhausted retryOpts transient transport req
      retryOpts.MaxRetries.toNat 0
      (fun i _ => by
        obtain ⟨resp, b, ht, htr⟩ := htrans i
        rw [Nat.zero_add, ht]
        exact htr)
    refine ⟨by rw [hcount, hloop.2], ?_⟩
    rw [herr _ hloop.1]
    unfold writeError
    rw [encodeErrorJSON_safe lib (ascii "Failed to proxy request") (by decide)]
    decide

/-- C13, witness: with three attempts, an upstream that answers 503 twice and
then 200 receives three calls and its 200 answer is relayed. -/
theorem retry_bound_witness :
    (upstreamCallCount sampleRetryOptions transient429or5xx (flakyUpstream 2)
        (handleProxy Stdlib.plain (sampleRetryServer (flakyUpstream 2)) sampleGET) : Int)
      = 3 ∧
    writerCalls (handleProxy Stdlib.plain (sampleRetryServer (flakyUpstream 2)) sampleGET)
      = [.headerSet (ascii "Content-Type") (ascii "application/json"),
         .writeHeader 200, .write (ascii "ok")] :=
  (retry_bound Stdlib.plain (ascii "test-api-key")
    (fun k => if k = ascii "eth-mainnet" then some (ascii "https://alchemy.example") else none)
    sampleRetryOptions transient429or5xx (flakyUpstream 2) sampleGET sampleUpstreamGET
    (by decide)).1 2 [] (ascii "ok") rfl
    (fun i hi => ⟨⟨503, []⟩, ascii "busy", by simp [flakyUpstream, hi], by decide⟩)
    rfl (by decide)

end NftProxy
